import Mathlib

/-!
Verification development for the `gas-budget-scripts` repository.

The Google Apps Script sources (TypeScript) are shallowly embedded here:
pure functions become Lean functions, spreadsheet / Gmail state becomes
explicit record state, thrown exceptions become `Except String`, JavaScript
`number` amounts become `ℚ` (the amounts occurring in the scripts are plain
decimals), and JavaScript `Date` values become their millisecond timestamps
(`Int`).  JavaScript built-ins used by the source (`parseFloat`, string
methods, `Array.prototype.sort`, regular-expression matching) are modelled
by executable Lean functions whose behaviour is documented at each
definition.
-/

namespace JsModel

/-- JavaScript whitespace characters (the common members of `\s`):
space, tab, newline, carriage return, vertical tab, form feed,
no-break space, BOM.  The exotic Unicode space members of `\s` are not
produced by the e-mail sources and are omitted. -/
def isJsWs (c : Char) : Bool :=
  c = ' ' || c = '\t' || c = '\n' || c = '\r' || c = '\x0b' || c = '\x0c' ||
  c = Char.ofNat 0xa0 || c = Char.ofNat 0xfeff

/-- JavaScript line terminators: the characters that `.` does NOT match
in a regular expression without the `s` flag. -/
def isLineTerm (c : Char) : Bool :=
  c = '\n' || c = '\r' || c = Char.ofNat 0x2028 || c = Char.ofNat 0x2029

/-- ASCII digit test. -/
def isDigitChar (c : Char) : Bool :=
  '0' ≤ c && c ≤ '9'

/-- Numeric value of a list of ASCII digit characters, most significant
first (the usual left fold `acc * 10 + digit`). -/
def charsToNat (cs : List Char) : Nat :=
  cs.foldl (fun a c => a * 10 + (c.toNat - 48)) 0

/-- The ASCII digit character for a digit value `d < 10`. -/
def digitChar (d : Nat) : Char :=
  Char.ofNat (48 + d)

/-- Digit characters of a positive natural number, most significant
first; `fuel` bounds the recursion depth (structural recursion keeps the
function kernel-computable). -/
def natToCharsAux : Nat → Nat → List Char
  | _, 0 => []
  | 0, _ + 1 => []
  | n + 1, fuel + 1 =>
    natToCharsAux ((n + 1) / 10) fuel ++ [digitChar ((n + 1) % 10)]

/-- Decimal digit string of a natural number, as JavaScript
`Number.prototype.toString` renders a nonnegative integer. -/
def natToChars (n : Nat) : List Char :=
  if n = 0 then ['0'] else natToCharsAux n n

/-- Decimal rendering of an integer, as JavaScript renders an integer
`number` (a leading `-` for negative values). -/
def intToChars (m : Int) : List Char :=
  if m < 0 then '-' :: natToChars m.natAbs else natToChars m.natAbs

/-- How many times the prime `p` divides `n` (`fuel` bounds the recursion
depth; `fuel = n` always suffices, and structural recursion keeps the
function kernel-computable). -/
def pFac (p : Nat) : Nat → Nat → Nat
  | 0, _ => 0
  | fuel + 1, n =>
    if 2 ≤ p ∧ 0 < n ∧ n % p = 0 then pFac p fuel (n / p) + 1 else 0

/-- The number of decimal digits after the point that `q` needs: the
larger of the powers of `2` and `5` in its reduced denominator.  When the
denominator has no other prime factor this is exactly the length of the
shortest decimal fraction representing `q` — the form JavaScript's
`Number.prototype.toString` prints. -/
def decExp (q : ℚ) : Nat :=
  max (pFac 2 q.den q.den) (pFac 5 q.den q.den)

/-- Rendering of a rational with a finite decimal expansion, the way
JavaScript renders the corresponding `number` (shortest decimal: no
trailing zeros in the fraction, leading fraction zeros as needed, a pure
integer prints no decimal point, a leading `-` for negative values).
Every JavaScript `number` is a dyadic rational and therefore has a finite
decimal expansion, so this covers every value the scripts stringify.  For
a rational with no finite decimal expansion the function falls back to
printing its numerator and denominator; no such value reaches it. -/
def ratToChars (q : ℚ) : List Char :=
  let k := decExp q
  if (q * 10 ^ k).den = 1 then
    let m : Int := (q * 10 ^ k).num
    let sign : List Char := if m < 0 then ['-'] else []
    let n : Nat := m.natAbs
    let ip : Nat := n / 10 ^ k
    let fr : Nat := n % 10 ^ k
    if k = 0 then sign ++ natToChars ip
    else sign ++ natToChars ip ++ '.' ::
      (List.replicate (k - (natToChars fr).length) '0' ++ natToChars fr)
  else
    intToChars q.num ++ '/' :: natToChars q.den

/-- String form of `ratToChars`. -/
def ratToString (q : ℚ) : String :=
  String.mk (ratToChars q)

/-- JavaScript `parseFloat`, restricted to plain decimal notation (sign,
integer digits, optional fraction); exponent notation and `Infinity` are
not produced by the e-mail texts and are not modelled.  Leading whitespace
is skipped, parsing stops at the first character that cannot continue the
number, and `none` models the result `NaN` (no digits at all). -/
def parseFloatQ (s : String) : Option ℚ :=
  let cs := s.data.dropWhile isJsWs
  let signNeg : Bool := match cs with
    | '-' :: _ => true
    | _ => false
  let cs := match cs with
    | '-' :: t => t
    | '+' :: t => t
    | _ => cs
  let intDigits := cs.takeWhile isDigitChar
  let rest := cs.dropWhile isDigitChar
  let fracDigits : List Char := match rest with
    | '.' :: t => t.takeWhile isDigitChar
    | _ => []
  if intDigits.isEmpty && fracDigits.isEmpty then none
  else
    let mag : ℚ := (charsToNat intDigits : ℚ) +
      (charsToNat fracDigits : ℚ) / ((10 : ℚ) ^ fracDigits.length)
    some (if signNeg then -mag else mag)

/-- A value that the scripts treat as a date: either a genuine JavaScript
`Date` (carried as its millisecond timestamp) or a string that leaked out
of a spreadsheet cell.  This mirrors the source's defensive typing
`GoogleAppsScript.Base.Date | string`. -/
inductive DateVal where
  | date (ms : Int)
  | str (s : String)
deriving DecidableEq, Repr

/-- Whether a `DateVal` is a genuine `Date`. -/
def DateVal.isDate : DateVal → Bool
  | .date _ => true
  | .str _ => false

/-- The timestamp of a `DateVal`, defaulting to `0` for strings (only used
under hypotheses that rule the string case out). -/
def DateVal.time : DateVal → Int
  | .date t => t
  | .str _ => 0

/-- Stringification of a `DateVal` as used when a date is interpolated
into a diagnostic message or compared via `toString`.  A JavaScript `Date`
renders as a human-readable local-time string; that rendering is modelled
abstractly by printing the timestamp (the claims under verification never
depend on the exact rendering of a date). -/
def DateVal.toJsString : DateVal → String
  | .date t => String.mk (intToChars t)
  | .str s => s

/-- JavaScript `>` between two date-ish values.  Two `Date`s compare by
timestamp, two strings compare lexicographically (code points; identical
to UTF-16 order for the basic plane), and a mixed pair compares the
`Date`'s timestamp with `ToNumber` of the string — a non-numeric string
gives `NaN`, making the comparison false.  Only plain decimal strings are
recognised as numeric, as in `parseFloatQ`. -/
def jsGtDateVal : DateVal → DateVal → Bool
  | .date a, .date b => a > b
  | .str a, .str b => decide (b < a)
  | .date a, .str s =>
    match parseFloatQ s with
    | some x => decide ((x : ℚ) < (a : ℚ))
    | none => false
  | .str s, .date b =>
    match parseFloatQ s with
    | some x => decide ((b : ℚ) < (x : ℚ))
    | none => false

end JsModel

namespace Util

open JsModel

/-- `Util.areDatesEqual` from `src/util/util.ts`: two genuine `Date`s are
equal when their `getTime()` values agree; otherwise both sides are
compared via `toString`. -/
def areDatesEqual : DateVal → DateVal → Bool
  | .date a, .date b => a = b
  | a, b => a.toJsString = b.toJsString

end Util

/-- Decidable equality for `Except`, used to evaluate fallible model
functions at concrete inputs. -/
instance {ε α : Type} [DecidableEq ε] [DecidableEq α] :
    DecidableEq (Except ε α) := fun x y =>
  match x, y with
  | .ok a, .ok b =>
    if h : a = b then .isTrue (by rw [h])
    else .isFalse (by intro hh; injection hh; contradiction)
  | .error a, .error b =>
    if h : a = b then .isTrue (by rw [h])
    else .isFalse (by intro hh; injection hh; contradiction)
  | .ok _, .error _ => .isFalse (by intro hh; cases hh)
  | .error _, .ok _ => .isFalse (by intro hh; cases hh)

namespace Regex

open JsModel

/-!
A small executable model of the JavaScript regular expressions used by the
scripts.  Every pattern in the source falls into a simple fragment: a
sequence of literals, quantified single-character classes, named capturing
groups (whose bodies are again such sequences), and an optional trailing
end-of-input anchor; there is no alternation and no quantified group.  For
this fragment, a backtracking matcher that tries longer repetitions first
realises exactly JavaScript's leftmost/greedy semantics.
-/

/-- The character classes occurring in the source patterns. -/
inductive RClass where
  /-- `.` — any character except a line terminator. -/
  | dot
  /-- `\s` (and `[\s ]`, which denotes the same set here). -/
  | ws
  /-- An explicit set of characters, e.g. `[Ff]` or the literal `\r`. -/
  | anyOf (cs : List Char)
  /-- `[^<>\s ]` — the e-mail address token class. -/
  | emailTok
deriving Repr

/-- Membership in a character class. -/
def RClass.mem : RClass → Char → Bool
  | .dot, c => !isLineTerm c
  | .ws, c => isJsWs c
  | .anyOf cs, c => cs.contains c
  | .emailTok, c => !(c = '<' || c = '>' || isJsWs c)

/-- The quantifiers occurring in the source patterns. -/
inductive RQuant where
  | one
  | opt
  | star
  | plus
deriving Repr

/-- One element of a pattern: a literal run of characters, a quantified
character class, a marker opening or closing a named capturing group, or
the `$` end anchor. -/
inductive RItem where
  | lit (cs : List Char)
  | cls (c : RClass) (q : RQuant)
  | openG (name : String)
  | closeG (name : String)
  | eos
deriving Repr

/-- The captures recorded so far: group name to captured characters. -/
abbrev Caps := List (String × List Char)

/-- Minimum repetition count of a quantifier. -/
def RQuant.minCount : RQuant → Nat
  | .one => 1
  | .opt => 0
  | .star => 0
  | .plus => 1

/-- Maximum repetition count of a quantifier given the length of the
maximal run available. -/
def RQuant.maxCount : RQuant → Nat → Nat
  | .one, m => min 1 m
  | .opt, m => min 1 m
  | .star, m => m
  | .plus, m => m

/-- Try `f n`, `f (n-1)`, …, `f lo` in order (longest repetition first,
modelling greedy quantifiers), returning the first success. -/
def tryCounts (f : Nat → Option Caps) : Nat → Nat → Option Caps
  | n, lo =>
    if n < lo then none
    else
      match f n with
      | some r => some r
      | none =>
        match n with
        | 0 => none
        | n' + 1 => tryCounts f n' lo

/-- Backtracking matcher (fuelled so that it is structurally recursive and
kernel-computable; every recursive call shortens the item list, so
`items.length + 1` fuel always suffices).  `stack` holds, for each
currently open group, its name and the input remaining when it was opened;
`caps` the completed captures.  Returns the surviving captures on
success. -/
def matchItemsF : Nat → List RItem → List Char →
    List (String × List Char) → Caps → Option Caps
  | 0, _, _, _, _ => none
  | fuel + 1, items, s, stack, caps =>
    match items with
    | [] => some caps
    | .lit cs :: rest =>
      if cs.isPrefixOf s then matchItemsF fuel rest (s.drop cs.length) stack caps
      else none
    | .cls c q :: rest =>
      let run := (s.takeWhile c.mem).length
      tryCounts (fun n => matchItemsF fuel rest (s.drop n) stack caps)
        (q.maxCount run) q.minCount
    | .openG g :: rest => matchItemsF fuel rest s ((g, s) :: stack) caps
    | .closeG g :: rest =>
      match stack with
      | [] => none
      | (g', opened) :: stack' =>
        if g' = g then
          matchItemsF fuel rest s stack'
            ((g, opened.take (opened.length - s.length)) :: caps)
        else none
    | .eos :: rest => if s.isEmpty then matchItemsF fuel rest s stack caps else none

/-- Run the matcher with sufficient fuel. -/
def matchItems (items : List RItem) (s : List Char)
    (stack : List (String × List Char)) (caps : Caps) : Option Caps :=
  matchItemsF (items.length + 1) items s stack caps

/-- A whole pattern: `anchored` records a leading `^`. -/
structure RPattern where
  anchored : Bool
  items : List RItem

/-- `RegExp.prototype.exec`: for an anchored pattern, match at the start;
otherwise search left to right for the first position where the pattern
matches.  Returns the named captures on success. -/
def rexec (p : RPattern) (s : String) : Option Caps :=
  let cs := s.data
  if p.anchored then matchItems p.items cs [] []
  else searchFrom p.items cs
where
  /-- Try each start position left to right. -/
  searchFrom (items : List RItem) : List Char → Option Caps
    | [] => matchItems items [] [] []
    | c :: t =>
      match matchItems items (c :: t) [] [] with
      | some r => some r
      | none => searchFrom items t

/-- Look up a named capture as a `String`. -/
def capStr (caps : Caps) (g : String) : Option String :=
  (caps.lookup g).map String.mk

end Regex

namespace JsModel

/-- `String.prototype.startsWith`. -/
def strStartsWith (s pre : String) : Bool :=
  pre.data.isPrefixOf s.data

/-- `String.prototype.includes` for a single character. -/
def strIncludesChar (s : String) (c : Char) : Bool :=
  s.data.contains c

/-- `String.prototype.includes` for a substring. -/
def listIndexOf (sub : List Char) : List Char → Option Nat
  | [] => if sub.isEmpty then some 0 else none
  | c :: t =>
    if sub.isPrefixOf (c :: t) then some 0
    else (listIndexOf sub t).map (· + 1)

/-- `String.prototype.indexOf`: index of the first occurrence of `sub`, or
`none` (the source compares the JavaScript result with `>= 0`). -/
def strIndexOf (s sub : String) : Option Nat :=
  listIndexOf sub.data s.data

/-- `String.prototype.includes` for a substring. -/
def strIncludes (s sub : String) : Bool :=
  (strIndexOf s sub).isSome

/-- `String.prototype.substring(start)`. -/
def strFrom (s : String) (i : Nat) : String :=
  String.mk (s.data.drop i)

/-- `String.prototype.substring(0, n)`. -/
def strTake (s : String) (n : Nat) : String :=
  String.mk (s.data.take n)

/-- `String.prototype.trimEnd`. -/
def strTrimEnd (s : String) : String :=
  String.mk ((s.data.reverse.dropWhile isJsWs).reverse)

/-- Split a character list at every occurrence of `sep` (the separator is
dropped); always returns at least one (possibly empty) piece, like
`String.prototype.split`. -/
def splitListOn (sep : Char) : List Char → List (List Char)
  | [] => [[]]
  | c :: t =>
    let r := splitListOn sep t
    if c = sep then [] :: r
    else
      match r with
      | [] => [[c]]
      | h :: t' => (c :: h) :: t'

/-- `String.prototype.split("\n")`. -/
def strSplitNl (s : String) : List String :=
  (splitListOn '\n' s.data).map String.mk

/-- `Array.prototype.join("\n")`. -/
def joinNl (l : List String) : String :=
  String.intercalate "\n" l

/-- The substring of `s` before the first `|`, i.e. `s.split("|")[0]`. -/
def strBeforeBar (s : String) : String :=
  match splitListOn '|' s.data with
  | [] => s
  | h :: _ => String.mk h

/-- The apostrophe character, written via its code point. -/
def aposC : Char := Char.ofNat 39

/-- The apostrophe as a one-character string. -/
def apos : String := String.mk [aposC]

/-- Rendering of a possibly-undefined string in a template literal:
JavaScript prints `undefined` for a missing value. -/
def optTemplate : Option String → String
  | some s => s
  | none => "undefined"

/-- JavaScript falsiness of an optional number: `undefined`, `NaN`
(both modelled by `none`) and `0` are falsy. -/
def costFalsy : Option ℚ → Bool
  | none => true
  | some q => q = 0

/-- JavaScript falsiness of an optional string: `undefined` and the empty
string are falsy. -/
def nameFalsy : Option String → Bool
  | none => true
  | some s => s = ""

end JsModel

namespace Budgeting

open JsModel Regex Util

/-!
The regular expressions of `src/models/thread-list.model.ts` (current
variant: the second half of the checked-in file), written as `RPattern`
values item by item.
-/

/-- `/(?<email>[^<>\s ]+@[^<>\s ]+)/` — unanchored. -/
def formalEmailAddressRegExp : RPattern :=
  ⟨false, [.openG "email", .cls .emailTok .plus, .lit ['@'],
           .cls .emailTok .plus, .closeG "email"]⟩

/-- `/^Your \$(?<cost>.+) transaction with (?<name>.+)$/` -/
def chaseSubjectReceiptRegExp : RPattern :=
  ⟨true, [.lit "Your $".data, .openG "cost", .cls .dot .plus, .closeG "cost",
          .lit " transaction with ".data, .openG "name", .cls .dot .plus,
          .closeG "name", .eos]⟩

/-- `/^You have a \$(?<cost>.+) credit pending on your credit card$/` -/
def chaseSubjectRefundRegExp : RPattern :=
  ⟨true, [.lit "You have a $".data, .openG "cost", .cls .dot .plus,
          .closeG "cost", .lit " credit pending on your credit card".data,
          .eos]⟩

/-- `/^You used your card at a gas station$/` -/
def chaseSubjectGasRegExp : RPattern :=
  ⟨true, [.lit "You used your card at a gas station".data, .eos]⟩

/-- `/\r?\nMerchant\s+(?<name>.+)\s+\r?\n/` -/
def chaseBodyMerchantRegExp : RPattern :=
  ⟨false, [.cls (.anyOf ['\r']) .opt, .lit "\nMerchant".data, .cls .ws .plus,
           .openG "name", .cls .dot .plus, .closeG "name", .cls .ws .plus,
           .cls (.anyOf ['\r']) .opt, .lit ['\n']]⟩

/-- `getForwardSubjectRegExp`: strips the pattern's `/^` and trailing `/`
and prepends `^Fwd: ` — on our representation, prefixing the item list
with the literal `Fwd: `. -/
def getForwardSubjectRegExp (p : RPattern) : RPattern :=
  ⟨true, .lit "Fwd: ".data :: p.items⟩

/-- `service@paypal.com` -/
def paypalReceiptEmailAddress : String := "service@paypal.com"

/-- `/^You sent a \$(?<cost>.+)[\s ]USD payment$/` -/
def paypalSubjectReceiptRegExp : RPattern :=
  ⟨true, [.lit "You sent a $".data, .openG "cost", .cls .dot .plus,
          .closeG "cost", .cls .ws .one, .lit "USD payment".data, .eos]⟩

/-- Forwarded variant of `paypalSubjectReceiptRegExp`. -/
def paypalForwardSubjectReceiptRegExp : RPattern :=
  getForwardSubjectRegExp paypalSubjectReceiptRegExp

/-- `/You sent \$.+ to (?<name>.+)\r?\n\r?\n.*\r?\n.*\r?\n\r?\n(?<details>.+)\r?\n/` -/
def paypalBodyReceiptRecipientRegExp : RPattern :=
  ⟨false, [.lit "You sent $".data, .cls .dot .plus, .lit " to ".data,
           .openG "name", .cls .dot .plus, .closeG "name",
           .cls (.anyOf ['\r']) .opt, .lit ['\n'],
           .cls (.anyOf ['\r']) .opt, .lit ['\n'],
           .cls .dot .star, .cls (.anyOf ['\r']) .opt, .lit ['\n'],
           .cls .dot .star, .cls (.anyOf ['\r']) .opt, .lit ['\n'],
           .cls (.anyOf ['\r']) .opt, .lit ['\n'],
           .openG "details", .cls .dot .plus, .closeG "details",
           .cls (.anyOf ['\r']) .opt, .lit ['\n']]⟩

/-- `/^Money is waiting for you$/` -/
def paypalSubjectReceivedRegExp : RPattern :=
  ⟨true, [.lit "Money is waiting for you".data, .eos]⟩

/-- Forwarded variant of `paypalSubjectReceivedRegExp`. -/
def paypalForwardSubjectReceivedRegExp : RPattern :=
  getForwardSubjectRegExp paypalSubjectReceivedRegExp

/-- `/Accept your \$(?<cost>.+)[\s ]USD from (?<name>.+)\r?\n\r?\n.*\r?\n.*\r?\n\r?\n(?<details>.+)\r?\n/` -/
def paypalBodyReceivedNoteRegExp : RPattern :=
  ⟨false, [.lit "Accept your $".data, .openG "cost", .cls .dot .plus,
           .closeG "cost", .cls .ws .one, .lit "USD from ".data,
           .openG "name", .cls .dot .plus, .closeG "name",
           .cls (.anyOf ['\r']) .opt, .lit ['\n'],
           .cls (.anyOf ['\r']) .opt, .lit ['\n'],
           .cls .dot .star, .cls (.anyOf ['\r']) .opt, .lit ['\n'],
           .cls .dot .star, .cls (.anyOf ['\r']) .opt, .lit ['\n'],
           .cls (.anyOf ['\r']) .opt, .lit ['\n'],
           .openG "details", .cls .dot .plus, .closeG "details",
           .cls (.anyOf ['\r']) .opt, .lit ['\n']]⟩

/-- `venmo@venmo.com` -/
def venmoReceiptEmailAddress : String := "venmo@venmo.com"

/-- `/^You paid (?<name>.+) \$(?<cost>.+)$/` -/
def venmoSubjectReceiptRegExp : RPattern :=
  ⟨true, [.lit "You paid ".data, .openG "name", .cls .dot .plus,
          .closeG "name", .lit " $".data, .openG "cost", .cls .dot .plus,
          .closeG "cost", .eos]⟩

/-- Forwarded variant of `venmoSubjectReceiptRegExp`. -/
def venmoForwardSubjectReceiptRegExp : RPattern :=
  getForwardSubjectRegExp venmoSubjectReceiptRegExp

/-- `/paid\s*.*\s*\s*.*\s*\r?\n(?<details>.+)\r?\n/` -/
def venmoBodyReceiptNoteRegExp : RPattern :=
  ⟨false, [.lit "paid".data, .cls .ws .star, .cls .dot .star, .cls .ws .star,
           .cls .ws .star, .cls .dot .star, .cls .ws .star,
           .cls (.anyOf ['\r']) .opt, .lit ['\n'],
           .openG "details", .cls .dot .plus, .closeG "details",
           .cls (.anyOf ['\r']) .opt, .lit ['\n']]⟩

/-- `/^You completed (?<name>.+)'s \$(?<cost>.+) charge request$/`
(the literal between the groups contains an apostrophe, assembled via
`aposC`). -/
def venmoSubjectChargeRegExp : RPattern :=
  ⟨true, [.lit "You completed ".data, .openG "name", .cls .dot .plus,
          .closeG "name", .lit (aposC :: "s $".data), .openG "cost",
          .cls .dot .plus, .closeG "cost", .lit " charge request".data,
          .eos]⟩

/-- Forwarded variant of `venmoSubjectChargeRegExp`. -/
def venmoForwardSubjectChargeRegExp : RPattern :=
  getForwardSubjectRegExp venmoSubjectChargeRegExp

/-- `/charged\s*.*\s*\s*.*\s*\r?\n(?<details>.+)\r?\n/` -/
def venmoBodyChargeNoteRegExp : RPattern :=
  ⟨false, [.lit "charged".data, .cls .ws .star, .cls .dot .star, .cls .ws .star,
           .cls .ws .star, .cls .dot .star, .cls .ws .star,
           .cls (.anyOf ['\r']) .opt, .lit ['\n'],
           .openG "details", .cls .dot .plus, .closeG "details",
           .cls (.anyOf ['\r']) .opt, .lit ['\n']]⟩

/-- `/^(?<name>.+) paid you \$(?<cost>.+)$/` -/
def venmoSubjectReceivedRegExp : RPattern :=
  ⟨true, [.openG "name", .cls .dot .plus, .closeG "name",
          .lit " paid you $".data, .openG "cost", .cls .dot .plus,
          .closeG "cost", .eos]⟩

/-- Forwarded variant of `venmoSubjectReceivedRegExp`. -/
def venmoForwardSubjectReceivedRegExp : RPattern :=
  getForwardSubjectRegExp venmoSubjectReceivedRegExp

/-- `/paid\s*.*\s*\s*.*\s*\r?\n(?<details>.+)\r?\n/` (the received-note
pattern is textually identical to the receipt-note pattern). -/
def venmoBodyReceivedNoteRegExp : RPattern :=
  venmoBodyReceiptNoteRegExp

/-- Banner pattern
`/[Ff]orwarded message.*\s*\r?\n\r?\n?\*?From:\*?[  ](?<email>.+)\r?\n/`. -/
def forwardBannerRegExp : RPattern :=
  ⟨false, [.cls (.anyOf ['F', 'f']) .one, .lit "orwarded message".data,
           .cls .dot .star, .cls .ws .star,
           .cls (.anyOf ['\r']) .opt, .lit ['\n'],
           .cls (.anyOf ['\r']) .opt, .cls (.anyOf ['\n']) .opt,
           .cls (.anyOf ['*']) .opt, .lit "From:".data,
           .cls (.anyOf ['*']) .opt, .cls (.anyOf [' ', Char.ofNat 0xa0]) .one,
           .openG "email", .cls .dot .plus, .closeG "email",
           .cls (.anyOf ['\r']) .opt, .lit ['\n']]⟩

/-- Banner pattern
`/転送されたメッセージ.*\s*\r?\n\r?\n?\*?差出人:\*?[  ](?<email>.+)\r?\n/`. -/
def forwardBannerJaRegExp : RPattern :=
  ⟨false, [.lit "転送されたメッセージ".data,
           .cls .dot .star, .cls .ws .star,
           .cls (.anyOf ['\r']) .opt, .lit ['\n'],
           .cls (.anyOf ['\r']) .opt, .cls (.anyOf ['\n']) .opt,
           .cls (.anyOf ['*']) .opt, .lit "差出人:".data,
           .cls (.anyOf ['*']) .opt, .cls (.anyOf [' ', Char.ofNat 0xa0]) .one,
           .openG "email", .cls .dot .plus, .closeG "email",
           .cls (.anyOf ['\r']) .opt, .lit ['\n']]⟩

end Budgeting

namespace Budgeting

open JsModel Regex Util

/-- A Gmail message, reduced to the accessors the scripts call:
`getFrom`, `getTo`, `getSubject`, `getPlainBody`, `getDate`, `getId`,
and the id of its containing thread (`getThread().getId()`). -/
structure Message where
  fromAddr : String
  toAddr : String
  subject : String
  plainBody : String
  date : Int
  id : String
  threadId : String
deriving DecidableEq, Repr

/-- A Gmail thread, reduced to `getId`, `getLastMessageDate` and the
outcome of `getMessages()` (which, like any call into the mail store, can
throw — the error branch carries the thrown message). -/
structure ThreadRec where
  id : String
  lastMessageDate : Int
  messagesResult : Except String (List Message)
deriving Repr

/-- The configuration the scripts read from the Variables sheet
(`Variables.getVariables()`), passed explicitly here. -/
structure Variables where
  ForwardEmailAddress : String
  ForwardName : String
  TaxMultiplier : ℚ
  PayPeriodDays : Int
  TemplateName : String
deriving Repr

/-- The receipt record
(`src/models/receipt-info.model/receipt-info-base.model.ts` together with
its two subclasses).  `ReceiptInfo` adds a backing message (represented by
its ids and date), `EmptyReceipt` a backing thread; both are folded into
one record here.  The `ReceiptInfo` class constructor accepts only
`(message, cost, name)`, so the `category`/`type` arguments appearing at
some call sites are discarded by the constructor and no such fields exist
on the object. -/
structure ReceiptInfoBase where
  date : DateVal
  cost : Option ℚ := none
  name : Option String := none
  /-- Error message to display in a note on this receipt; empty string
  means no error. -/
  errorMessage : String := ""
  /-- Note to display on this receipt; empty string means no note. -/
  note : String := ""
  threadId : String := ""
  messageId : String := ""
deriving DecidableEq, Repr

/-- `new Budgeting.ReceiptInfo(message, cost, name, …)`: the date is taken
from the message; any further constructor arguments are discarded. -/
def mkReceiptInfo (m : Message) (cost : Option ℚ) (name : Option String) :
    ReceiptInfoBase :=
  { date := .date m.date, cost := cost, name := name,
    threadId := m.threadId, messageId := m.id }

/-- `new Budgeting.EmptyReceipt(date, thread)`. -/
def mkEmptyReceipt (date : Int) (threadId : String) : ReceiptInfoBase :=
  { date := .date date, threadId := threadId }

/-- `getEmailAddress` from `thread-list.model.ts`: extract the bare
address from a formal address such as `Chase <no.reply.alerts@chase.com>`;
throws when nothing matches. -/
def getEmailAddress (messageFormalAddress : String) : Except String String :=
  match rexec formalEmailAddressRegExp messageFormalAddress with
  | some caps =>
    match capStr caps "email" with
    | some e => .ok e
    | none => .error ("Could not get email address from " ++ messageFormalAddress)
  | none => .error ("Could not get email address from " ++ messageFormalAddress)

/-- `getForwardEmailAddress`: find a forwarding banner in the plain body
(Latin dialect first, then Japanese), take the captured `From` value and
normalize it to a bare address when it is a formal address. -/
def getForwardEmailAddress (message : Message) : Except String String :=
  let normalize : Caps → Except String String := fun caps =>
    let tentativeFrom := (capStr caps "email").getD ""
    match rexec formalEmailAddressRegExp tentativeFrom with
    | some fwCaps =>
      match capStr fwCaps "email" with
      | some e => .ok e
      | none => .ok tentativeFrom
    | none => .ok tentativeFrom
  match rexec forwardBannerRegExp message.plainBody with
  | some caps => normalize caps
  | none =>
    match rexec forwardBannerJaRegExp message.plainBody with
    | some caps => normalize caps
    | none =>
      .error ("Could not get " ++ apos ++ "from" ++ apos ++
        " email address from forwarded email with subject " ++ apos ++
        message.subject ++ apos)

/-- `getForwardPlainBody`: strip everything before a recognized forwarding
banner and the banner's fixed number of header lines (5 lines for the
Gmail banner, 6 for the other two dialects); fall back to the whole
body. -/
def getForwardPlainBody (message : Message) : String :=
  let plainBody := message.plainBody
  match strIndexOf plainBody "---------- Forwarded message ---------" with
  | some fwInd => joinNl ((strSplitNl (strFrom plainBody fwInd)).drop 5)
  | none =>
    match strIndexOf plainBody "Begin forwarded message:" with
    | some fwInd => joinNl ((strSplitNl (strFrom plainBody fwInd)).drop 6)
    | none =>
      match strIndexOf plainBody "転送されたメッセージ:" with
      | some fwInd => joinNl ((strSplitNl (strFrom plainBody fwInd)).drop 6)
      | none => plainBody

/-- Result record of `getMessagePartInfo`. -/
structure PartInfo where
  cost : Option ℚ
  name : Option String
  details : Option String
deriving DecidableEq, Repr

/-- `getMessagePartInfo`: run a pattern against a message part; on a match
return the captured pieces, parsing a captured (hence nonempty, hence
truthy) `cost` with `parseFloat`. -/
def getMessagePartInfo (messagePart : String) (p : RPattern) :
    Option PartInfo :=
  match rexec p messagePart with
  | some caps =>
    some { cost :=
             match capStr caps "cost" with
             | some cs => parseFloatQ cs
             | none => none,
           name := capStr caps "name",
           details := capStr caps "details" }
  | none => none

/-- `getReceiptInfoChase` (the `no.reply.alerts@chase.com` entry of
`getReceiptInfoMap`): try the plain-receipt subject, then the refund
subject (negating the amount and reading the counterparty from the body's
`Merchant` line), then the gas subject.  The `category`/`type` values the
source computes are discarded by the `ReceiptInfo` constructor. -/
def getReceiptInfoChase (message : Message) : ReceiptInfoBase :=
  let subject := message.subject
  match getMessagePartInfo subject chaseSubjectReceiptRegExp with
  | some subjMatches => mkReceiptInfo message subjMatches.cost subjMatches.name
  | none =>
    match getMessagePartInfo subject chaseSubjectRefundRegExp with
    | some subjMatches =>
      let cost := subjMatches.cost.map (· * (-1))
      let name :=
        match getMessagePartInfo message.plainBody chaseBodyMerchantRegExp with
        | some bodyMatches => bodyMatches.name
        | none => none
      mkReceiptInfo message cost name
    | none =>
      match getMessagePartInfo subject chaseSubjectGasRegExp with
      | some _ =>
        match getMessagePartInfo message.plainBody chaseBodyMerchantRegExp with
        | some bodyMatches =>
          mkReceiptInfo message none
            (bodyMatches.name.map (fun n => n ++ " (Gas)"))
        | none => mkReceiptInfo message none none
      | none => mkReceiptInfo message none none

/-- `getReceiptInfoPaypal`: try the sent-payment subject (name and details
from the body), then the received subject (amount and name from the body,
amount negated).  The `type` prefix the source computes from the `to`
address is discarded by the `ReceiptInfo` constructor. -/
def getReceiptInfoPaypal (message : Message) (isForwarded : Bool) :
    ReceiptInfoBase :=
  let subject := message.subject
  let body := if isForwarded then getForwardPlainBody message
              else message.plainBody
  match getMessagePartInfo subject
      (if isForwarded then paypalForwardSubjectReceiptRegExp
       else paypalSubjectReceiptRegExp) with
  | some subjMatches =>
    let cost := subjMatches.cost
    let name :=
      match getMessagePartInfo body paypalBodyReceiptRecipientRegExp with
      | some bodyMatches =>
        some (optTemplate bodyMatches.name ++ " - " ++
          optTemplate bodyMatches.details)
      | none => none
    mkReceiptInfo message cost name
  | none =>
    match getMessagePartInfo subject
        (if isForwarded then paypalForwardSubjectReceivedRegExp
         else paypalSubjectReceivedRegExp) with
    | some _ =>
      match getMessagePartInfo body paypalBodyReceivedNoteRegExp with
      | some bodyMatches =>
        mkReceiptInfo message (bodyMatches.cost.map (· * (-1)))
          (some (optTemplate bodyMatches.name ++ " - " ++
            optTemplate bodyMatches.details))
      | none => mkReceiptInfo message none none
    | none => mkReceiptInfo message none none

/-- `getReceiptInfoVenmo`: try the paid subject, then the completed-charge
subject, then the received subject (amount negated); in each case a body
note extends the counterparty name.  The `type` prefix is discarded by the
`ReceiptInfo` constructor. -/
def getReceiptInfoVenmo (message : Message) (isForwarded : Bool) :
    ReceiptInfoBase :=
  let subject := message.subject
  let body := if isForwarded then getForwardPlainBody message
              else message.plainBody
  match getMessagePartInfo subject
      (if isForwarded then venmoForwardSubjectReceiptRegExp
       else venmoSubjectReceiptRegExp) with
  | some subjMatches =>
    let cost := subjMatches.cost
    let name := subjMatches.name
    let name :=
      match getMessagePartInfo body venmoBodyReceiptNoteRegExp with
      | some bodyMatches =>
        some (optTemplate name ++ " - " ++ optTemplate bodyMatches.details)
      | none => name
    mkReceiptInfo message cost name
  | none =>
    match getMessagePartInfo subject
        (if isForwarded then venmoForwardSubjectChargeRegExp
         else venmoSubjectChargeRegExp) with
    | some subjMatches =>
      let cost := subjMatches.cost
      let name := subjMatches.name
      let name :=
        match getMessagePartInfo body venmoBodyChargeNoteRegExp with
        | some bodyMatches =>
          some (optTemplate name ++ " - " ++ optTemplate bodyMatches.details)
        | none => name
      mkReceiptInfo message cost name
    | none =>
      match getMessagePartInfo subject
          (if isForwarded then venmoForwardSubjectReceivedRegExp
           else venmoSubjectReceivedRegExp) with
      | some subjMatches =>
        let cost := subjMatches.cost.map (· * (-1))
        let name := subjMatches.name
        let name :=
          match getMessagePartInfo body venmoBodyReceivedNoteRegExp with
          | some bodyMatches =>
            some (optTemplate name ++ " - " ++ optTemplate bodyMatches.details)
          | none => name
        mkReceiptInfo message cost name
      | none => mkReceiptInfo message none none

/-- The handler the `getReceiptInfoMap` proxy returns for the configured
forward address: resolve the original sender from the forwarding banner
and dispatch to PayPal or Venmo; an unrecognized origin yields an empty
receipt (so that the caller records a note). -/
def getReceiptInfoForward (message : Message) : Except String ReceiptInfoBase :=
  match getForwardEmailAddress message with
  | .error e => .error e
  | .ok forwardedFrom =>
    if forwardedFrom = paypalReceiptEmailAddress then
      .ok (getReceiptInfoPaypal message true)
    else if forwardedFrom = venmoReceiptEmailAddress then
      .ok (getReceiptInfoVenmo message true)
    else
      .ok (mkReceiptInfo message none none)

/-- `getReceiptInfoMap` (a proxied object in the source): the proxy's
`get` first checks the configured forward address, then the literal keys
`no.reply.alerts@chase.com`, `service@paypal.com`, `venmo@venmo.com`;
anything else has no handler. -/
def getReceiptInfoMap (vars : Variables) (addressFrom : String) :
    Option (Message → Except String ReceiptInfoBase) :=
  if addressFrom = vars.ForwardEmailAddress then
    some getReceiptInfoForward
  else if addressFrom = "no.reply.alerts@chase.com" then
    some (fun m => .ok (getReceiptInfoChase m))
  else if addressFrom = paypalReceiptEmailAddress then
    some (fun m => .ok (getReceiptInfoPaypal m false))
  else if addressFrom = venmoReceiptEmailAddress then
    some (fun m => .ok (getReceiptInfoVenmo m false))
  else none

/-- The body of the per-message `try` block in the `ThreadList`
constructor, as one fallible step: resolve the sender, look up the
handler, run it. -/
def processMessage (vars : Variables) (message : Message) :
    Except String ReceiptInfoBase :=
  match getEmailAddress message.fromAddr with
  | .error e => .error e
  | .ok fromA =>
    match getReceiptInfoMap vars fromA with
    | none => .error ("No function to handle receipt message from " ++ fromA)
    | some getReceiptInfo => getReceiptInfo message

end Budgeting

namespace Budgeting

open JsModel Regex Util

/-- `ThreadInfo` from `src/models/thread-info.model.ts`: the thread
(represented by its id and last-message date) with the receipts, notes and
errors collected for it. -/
structure ThreadInfo where
  threadId : String
  lastMessageDate : Int
  receiptInfos : List ReceiptInfoBase := []
  notes : List String := []
  errors : List String := []
deriving DecidableEq, Repr

/-- `ThreadInfo.hasInformation`: the thread is worth keeping when it has
receipts or errors (notes alone are not enough). -/
def ThreadInfo.hasInformation (ti : ThreadInfo) : Bool :=
  ti.receiptInfos.length > 0 || ti.errors.length > 0

/-- The diagnostic recorded when a message throws during processing
(`Error while processing message … Skipping marking as processed. …`);
`e` is the `${e}` rendering of the thrown value. -/
def messageErrorText (threadId : String) (message : Message) (e : String) :
    String :=
  "Error while processing message " ++ message.id ++ " with subject " ++
  message.subject ++ " from date " ++ (DateVal.date message.date).toJsString ++
  " on thread " ++ threadId ++ ". Skipping marking as processed. " ++ e

/-- The note recorded for a classified message that is not a receipt
(`Message is not a receipt: …` with sender, subject, date, thread id and
the first 280 characters of the plain body). -/
def notReceiptNoteText (fromA : String) (threadId : String)
    (message : Message) : String :=
  "Message is not a receipt:\nFrom: " ++ fromA ++ "\nSubject: " ++
  message.subject ++ "\nDate: " ++ (DateVal.date message.date).toJsString ++
  "\nThread ID: " ++ threadId ++ "\n280 Chars of Plain Body:\n" ++
  strTake message.plainBody 280

/-- The diagnostic recorded when enumerating a thread's messages throws
(`Error while processing thread with ID …`); `e` is the `${e}` rendering
of the thrown value. -/
def threadErrorText (threadId : String) (e : String) : String :=
  "Error while processing thread with ID " ++ threadId ++
  ". Skipping marking as processed. " ++ e

/-- One iteration of the per-message loop in the `ThreadList` constructor:
resolve the sender and run the handler inside a `try`; a throw appends a
diagnostic error; a non-receipt result (falsy cost and falsy name)
appends a note; otherwise the receipt is appended. -/
def processMessageInto (vars : Variables) (threadId : String)
    (ti : ThreadInfo) (message : Message) : ThreadInfo :=
  match getEmailAddress message.fromAddr with
  | .error e =>
    { ti with errors :=
        ti.errors ++ [messageErrorText threadId message ("Error: " ++ e)] }
  | .ok fromA =>
    match getReceiptInfoMap vars fromA with
    | none =>
      { ti with errors := ti.errors ++ [messageErrorText threadId message
          ("Error: " ++ ("No function to handle receipt message from " ++
            fromA))] }
    | some getReceiptInfo =>
      match getReceiptInfo message with
      | .error e =>
        { ti with errors :=
            ti.errors ++ [messageErrorText threadId message ("Error: " ++ e)] }
      | .ok receipt =>
        if costFalsy receipt.cost && nameFalsy receipt.name then
          { ti with notes :=
              ti.notes ++ [notReceiptNoteText fromA threadId message] }
        else
          { ti with receiptInfos := ti.receiptInfos ++ [receipt] }

/-- Processing of one thread by the `ThreadList` constructor: iterate the
thread's messages (a failed `getMessages()` becomes a single thread
error). -/
def processThread (vars : Variables) (tr : ThreadRec) : ThreadInfo :=
  let init : ThreadInfo :=
    { threadId := tr.id, lastMessageDate := tr.lastMessageDate }
  match tr.messagesResult with
  | .ok messages => messages.foldl (processMessageInto vars tr.id) init
  | .error e => { init with errors := [threadErrorText tr.id e] }

/-- The log line emitted when a thread with only notes is discarded. -/
def ignoringThreadLogText (tr : ThreadRec) (ti : ThreadInfo) : String :=
  "Ignoring thread " ++ tr.id ++
  " that has notes but no relevant info. Notes: " ++
  String.intercalate "," ti.notes

/-- One iteration of the per-thread loop of the `ThreadList` constructor:
keep the processed thread's `ThreadInfo` exactly when it
`hasInformation`; otherwise, when it still has notes, log that they are
being thrown away. -/
def buildThreadListStep (vars : Variables)
    (acc : List ThreadInfo × List String) (tr : ThreadRec) :
    List ThreadInfo × List String :=
  let threadInfo := processThread vars tr
  if threadInfo.hasInformation then (acc.1 ++ [threadInfo], acc.2)
  else if threadInfo.notes.length > 0 then
    (acc.1, acc.2 ++ [ignoringThreadLogText tr threadInfo])
  else acc

/-- The `ThreadList` constructor over a list of threads.  Returns the kept
`threadInfos` together with the emitted log lines. -/
def buildThreadList (vars : Variables) (threads : List ThreadRec) :
    List ThreadInfo × List String :=
  threads.foldl (buildThreadListStep vars) ([], [])

/-- `compareReceiptInfosByDateAscending` (current variant): `1` when the
first date is greater, `0` when `Util.areDatesEqual` holds, else `-1`. -/
def compareReceiptInfosByDateAscending (a b : ReceiptInfoBase) : Int :=
  if jsGtDateVal a.date b.date then 1
  else if areDatesEqual a.date b.date then 0
  else -1

/-- Stable insertion of `x` into `l`: `x` goes in front of the first
element it does not compare greater than. -/
def jsSortInsert (cmp : α → α → Int) (x : α) : List α → List α
  | [] => [x]
  | y :: l => if cmp x y ≤ 0 then x :: y :: l else y :: jsSortInsert cmp x l

/-- Model of `Array.prototype.sort(cmp)`.  ECMAScript requires the sort to
be stable; when the comparator is consistent (a total preorder), the
stable sorted permutation is unique, so this insertion sort returns
exactly what the engine's sort returns.  (For an inconsistent comparator
ECMAScript leaves the order implementation-defined; every property proved
below assumes enough consistency to make the result well-defined.) -/
def jsSortStable (cmp : α → α → Int) : List α → List α
  | [] => []
  | x :: l => jsSortInsert cmp x (jsSortStable cmp l)

/-- Separator used when joining a thread's errors onto its first
receipt. -/
def nextErrorSep : String :=
  "\n\n~~~~~~~~~~~~~~~~~ NEXT ERROR ~~~~~~~~~~~~~~~~~\n\n"

/-- Separator used when joining a thread's notes onto its first
receipt. -/
def nextNoteSep : String :=
  "\n\n~~~~~~~~~~~~~~~~~ NEXT NOTE ~~~~~~~~~~~~~~~~~\n\n"

/-- Overwrite the `errorMessage` of the first receipt of a list. -/
def setHeadError (e : String) : List ReceiptInfoBase → List ReceiptInfoBase
  | [] => []
  | r :: t => { r with errorMessage := e } :: t

/-- Overwrite the `note` of the first receipt of a list. -/
def setHeadNote (n : String) : List ReceiptInfoBase → List ReceiptInfoBase
  | [] => []
  | r :: t => { r with note := n } :: t

/-- The flat-mapping stage of `ThreadList.getAllReceiptInfos`: for each
kept thread take its receipts (or a synthesized `EmptyReceipt` dated at
the thread's last message when there are none), then bake the thread's
errors and notes into the first receipt. -/
def getAllReceiptInfosUnsorted (threadInfos : List ThreadInfo) :
    List ReceiptInfoBase :=
  threadInfos.flatMap fun threadInfo =>
    let receiptInfos := threadInfo.receiptInfos
    let receiptInfos :=
      if receiptInfos.length = 0 then
        [mkEmptyReceipt threadInfo.lastMessageDate threadInfo.threadId]
      else receiptInfos
    let receiptInfos :=
      if threadInfo.errors.length > 0 then
        setHeadError (String.intercalate nextErrorSep threadInfo.errors)
          receiptInfos
      else receiptInfos
    let receiptInfos :=
      if threadInfo.notes.length > 0 then
        setHeadNote (String.intercalate nextNoteSep threadInfo.notes)
          receiptInfos
      else receiptInfos
    receiptInfos

/-- `ThreadList.getAllReceiptInfos`: the flat-mapped receipts, sorted with
`compareReceiptInfosByDateAscending`. -/
def getAllReceiptInfos (threadInfos : List ThreadInfo) :
    List ReceiptInfoBase :=
  jsSortStable compareReceiptInfosByDateAscending
    (getAllReceiptInfosUnsorted threadInfos)

end Budgeting

namespace Budgeting

open JsModel Regex Util

/-- The value of one spreadsheet cell as the scripts see it through
`getValues`/`getFormulas` with the `formula || value` fallback: blank
(the empty string), a date, a plain string (including formula strings,
which start with `=`), or a number. -/
inductive CellV where
  | blank
  | date (ms : Int)
  | str (s : String)
  | num (q : ℚ)
deriving DecidableEq, Repr

/-- JavaScript falsiness of a cell content: the empty string, the number
`0` and a blank are falsy; a `Date` object is always truthy. -/
def cellFalsy : CellV → Bool
  | .blank => true
  | .date _ => false
  | .str s => s = ""
  | .num q => q = 0

/-- `Util.isString` from `src/util/util.ts`, applied to a cell content. -/
def cellIsString : CellV → Bool
  | .str _ => true
  | _ => false

/-- A cell content as a date-ish argument to `Util.areDatesEqual`
(a blank reads back as the empty string; a number stringifies). -/
def cellToDateArg : CellV → DateVal
  | .blank => .str ""
  | .date t => .date t
  | .str s => .str s
  | .num q => .str (ratToString q)

/-- Rendering of a cell content inside a template literal (`${cost}`). -/
def cellTemplate : CellV → String
  | .blank => ""
  | .date t => (DateVal.date t).toJsString
  | .str s => s
  | .num q => ratToString q

/-- One transaction row of a sheet: the three transaction columns
(date, name, cost) and the two metadata columns (category, type).
`name`, `category` and `type` are modelled as plain strings (blank =
empty string), which is what these columns hold. -/
structure TxRow where
  date : CellV := .blank
  name : String := ""
  cost : CellV := .blank
  category : String := ""
  rtype : String := ""
deriving DecidableEq, Repr

/-- A transaction sheet: its name, the `start`/`end` dates parsed from the
name by `getTransactionSheetInfos` (start at 00:00:00.000, end at
23:59:59.999 of the named days; the fixed script time-zone offset is
normalised away), and its transaction rows (the sheet's `TransactionsMax`
is the length of `rows`). -/
structure TxSheet where
  name : String
  startDate : Int
  endDate : Int
  rows : List TxRow := []
deriving DecidableEq, Repr

/-- The spreadsheet: its transaction sheets in tab order, and whether the
template sheet named by the configuration exists. -/
structure Spreadsheet where
  sheets : List TxSheet
  templateExists : Bool := true
deriving DecidableEq, Repr

/-- Milliseconds per day. -/
def msPerDay : Int := 86400000

/-- Milliseconds in twelve hours. -/
def msHalfDay : Int := 43200000

/-- The civil day number of a timestamp. -/
def msDay (ms : Int) : Int := ms.fdiv msPerDay

/-- 00:00:00.000 of the day containing `ms` — what
`getTransactionSheetInfos` parses from the start half of a sheet name. -/
def dayStartMs (ms : Int) : Int := msDay ms * msPerDay

/-- 23:59:59.999 of the day containing `ms` — what
`getTransactionSheetInfos` parses from the end half of a sheet name. -/
def dayEndMs (ms : Int) : Int := msDay ms * msPerDay + (msPerDay - 1)

/-- Civil date (year, month, day) of a day number, via the standard
days-from-civil inverse.  Used only to render sheet names. -/
def civilFromDays (z : Int) : Int × Int × Int :=
  let z' := z + 719468
  let era := z'.fdiv 146097
  let doe := z' - era * 146097
  let yoe := (doe - doe.fdiv 1460 + doe.fdiv 36524 - doe.fdiv 146096).fdiv 365
  let y := yoe + era * 400
  let doy := doe - (365 * yoe + yoe.fdiv 4 - yoe.fdiv 100)
  let mp := (5 * doy + 2).fdiv 153
  let d := doy - (153 * mp + 2).fdiv 5 + 1
  let m := if mp < 10 then mp + 3 else mp - 9
  (if mp < 10 then y else y + 1, m, d)

/-- `MM/DD/YY` rendering of a timestamp, as `addTransactionSheet` builds
sheet names (`getMonth() + 1`, `getDate()`, last two digits of
`getFullYear()`). -/
def fmtSheetDate (ms : Int) : String :=
  let ymd := civilFromDays (msDay ms)
  String.mk (intToChars ymd.2.1) ++ "/" ++ String.mk (intToChars ymd.2.2) ++
    "/" ++ String.mk (((intToChars ymd.1).drop 2).take 2)

/-- `compareTransactionSheetInfosByStartDateDescending` (the variant in
`src/util/budgeting.util.ts`): `-1` when the first start date is greater,
else `1`.  The source's middle branch compares two `Date` objects with
`===`, which is reference equality and is false for distinct objects, so
it never fires here. -/
def compareTransactionSheetInfosByStartDateDescending (a b : TxSheet) : Int :=
  if a.startDate > b.startDate then -1 else 1

/-- The position of the sheet with the given name in the sheet list
(`sheet.getIndex() - 1` within the modelled transaction sheets); `0` past
the end when absent. -/
def idxOfSheet (name : String) : List TxSheet → Nat
  | [] => 0
  | s :: t => if s.name = name then 0 else idxOfSheet name t + 1

/-- The predicate `recordReceipts` uses to pick a receipt's sheet:
`receiptInfo.date >= tSheetInfo.startDate && receiptInfo.date <
tSheetInfo.endDate`.  For a genuine receipt date this is plain timestamp
comparison; a string date compares numerically when the string is
numeric and is otherwise `NaN`, failing both comparisons. -/
def receiptDateInSheet (d : DateVal) (sheet : TxSheet) : Bool :=
  match d with
  | .date t => sheet.startDate ≤ t && t < sheet.endDate
  | .str s =>
    match parseFloatQ s with
    | some x => (sheet.startDate : ℚ) ≤ x && x < (sheet.endDate : ℚ)
    | none => false

/-- The `find` in `recordReceipts` grouping: the first sheet (in tab
order) whose window contains the receipt's date. -/
def findTransactionSheetForReceipt (sheets : List TxSheet)
    (r : ReceiptInfoBase) : Option TxSheet :=
  sheets.find? (receiptDateInSheet r.date)

/-- `JSON.stringify(receiptInfo)` in the not-found error, via the model's
`Repr` (the exact JSON rendering is irrelevant to every claim). -/
def describeReceipt (r : ReceiptInfoBase) : String :=
  toString (repr r)

/-- Whether a transaction row is fully empty in the three transaction
columns, as the `every((value) => value === "")` scan sees it. -/
def rowValuesEmpty (row : TxRow) : Bool :=
  row.date = .blank && row.name = "" && row.cost = .blank

/-- The backward scan of `getNextOpenTransactionRange` /
`recordReceiptsOnSheet`: starting from the last row, walk up while rows
are empty; the result is the index one past the last non-empty row
(`0` when the sheet is entirely empty). -/
def firstEmptyTransactionIndex (rows : List TxRow) : Nat :=
  (rows.reverse.takeWhile rowValuesEmpty).length |> (rows.length - ·)

/-- Write a receipt into a transaction row (`[date, name, cost]` via
`setValues`): an absent name or cost writes a blank. -/
def receiptToRow (old : TxRow) (r : ReceiptInfoBase) : TxRow :=
  { old with
    date := match r.date with
      | .date t => .date t
      | .str s => .str s,
    name := (r.name).getD "",
    cost := match r.cost with
      | some q => .num q
      | none => .blank }

/-- `recordReceiptsOnSheet`: find the tail run of empty rows, fail when it
is too short, and write the receipts there in order.  The visual marks
(backgrounds and the combined error/note cell annotation) do not change
row contents and are not represented.  Returns the updated rows and the
number of receipts written. -/
def recordReceiptsOnSheet (sheet : TxSheet)
    (receiptInfos : List ReceiptInfoBase) : Except String (TxSheet × Nat) :=
  let transactionsMax := sheet.rows.length
  let firstEmpty := firstEmptyTransactionIndex sheet.rows
  if transactionsMax < firstEmpty + receiptInfos.length then
    .error ("There are not enough empty transaction rows in sheet " ++
      sheet.name ++ " to record " ++
      String.mk (natToChars receiptInfos.length) ++ " receipts!")
  else
    let written :=
      (sheet.rows.drop firstEmpty).zipWith receiptToRow receiptInfos
    .ok ({ sheet with rows :=
            sheet.rows.take firstEmpty ++ written ++
            sheet.rows.drop (firstEmpty + receiptInfos.length) },
         receiptInfos.length)

/-- Result of a `recordReceipts` run: the updated spreadsheet, the
per-sheet counts of receipts added, the ids of the threads that were
marked processed, and the number of reported errors. -/
structure RecordResult where
  spreadsheet : Spreadsheet
  receiptInfosAdded : List (String × Nat)
  markedThreadIds : List String
  numErrors : Nat
deriving DecidableEq, Repr

/-- The grouping pass of `recordReceipts`: assign every receipt to the
first sheet containing its date, failing on the first receipt that has no
sheet.  Returns, per sheet (in tab order), the receipts assigned to it,
in receipt order. -/
def groupReceiptsBySheet (sheets : List TxSheet)
    (receiptInfos : List ReceiptInfoBase) :
    Except String (List (TxSheet × List ReceiptInfoBase)) :=
  match receiptInfos.find? (fun r =>
      (findTransactionSheetForReceipt sheets r).isNone) with
  | some r => .error ("Could not find transaction sheet for receipt " ++
      describeReceipt r)
  | none =>
    .ok (sheets.enum.map (fun iSheet =>
      (iSheet.2, receiptInfos.filter (fun r =>
        (sheets.findIdx? (receiptDateInSheet r.date)) = some iSheet.1))))

/-- The marking loop of `recordReceipts`: threads with errors are counted
and skipped; the rest are marked processed (via the external
`markThreadProcessed`, represented by their ids) when requested. -/
def markingPass (threadInfos : List ThreadInfo)
    (shouldMarkProcessed : Bool) : List String × Nat :=
  threadInfos.foldl
    (fun acc threadInfo =>
      if threadInfo.errors.length > 0 then
        (acc.1, acc.2 + threadInfo.errors.length)
      else if shouldMarkProcessed then (acc.1 ++ [threadInfo.threadId], acc.2)
      else acc)
    ([], 0)

/-- The grouping-and-writing stage of `recordReceipts` (everything before
the marking loop): nothing happens when there are no receipts; otherwise
group them (failing fast) and write each sheet's group. -/
def recordReceiptsWrite (threadInfos : List ThreadInfo) (ss : Spreadsheet) :
    Except String (Spreadsheet × List (String × Nat)) :=
  let receiptInfos := getAllReceiptInfos threadInfos
  if receiptInfos.length > 0 then
    match groupReceiptsBySheet ss.sheets receiptInfos with
    | .error e => .error e
    | .ok groups =>
      groups.foldlM
        (fun acc g =>
          if g.2.length > 0 then
            match recordReceiptsOnSheet g.1 g.2 with
            | .error e => .error e
            | .ok (sheet', n) =>
              let cur := acc.1
              let newSheets := cur.sheets.map
                (fun s => if s.name = g.1.name then sheet' else s)
              .ok ({ cur with sheets := newSheets }, acc.2 ++ [(g.1.name, n)])
          else .ok acc)
        (ss, ([] : List (String × Nat)))
  else .ok (ss, [])

/-- `recordReceipts`: the writing stage, then the marking loop.  A throw
during writing aborts the run before any thread is marked. -/
def recordReceipts (threadInfos : List ThreadInfo)
    (shouldMarkProcessed : Bool) (ss : Spreadsheet) :
    Except String RecordResult :=
  match recordReceiptsWrite threadInfos ss with
  | .error e => .error e
  | .ok (ss', added) =>
    let marking := markingPass threadInfos shouldMarkProcessed
    .ok { spreadsheet := ss', receiptInfosAdded := added,
          markedThreadIds := marking.1, numErrors := marking.2 }

/-- `addTransactionSheet`: sort the sheets by start date descending, take
the latest, return `false` when `now` is not past its end date; otherwise
compute the next window (`end + 12h` and `end + (PayPeriodDays − 1) days
+ 12h`, the mid-day shifts making the day arithmetic robust), decide the
gap flag from the sheet 13 positions down, name the sheet from the two
dates, and duplicate the template into place (immediately before the
previous latest sheet).  The inserted sheet's parsed window is the
day-start/day-end of the two dates, which is what a later
`getTransactionSheetInfos` re-parse of the name yields. -/
def addTransactionSheet (vars : Variables) (now : Int) (ss : Spreadsheet) :
    Except String (Bool × Spreadsheet) :=
  let transactionSheetInfos :=
    jsSortStable compareTransactionSheetInfosByStartDateDescending ss.sheets
  match transactionSheetInfos with
  | [] => .error "No transaction sheets found in order to add more"
  | latest :: _ =>
    if now ≤ latest.endDate then .ok (false, ss)
    else
      let newStartDateMs := latest.endDate + msHalfDay
      let newEndDateMs :=
        latest.endDate + (vars.PayPeriodDays - 1) * msPerDay + msHalfDay
      let isGapPeriod :=
        decide (14 ≤ transactionSheetInfos.length) &&
        strIncludes ((transactionSheetInfos.drop 13).headD latest).name "(Gap)"
      let newSheetName :=
        fmtSheetDate newStartDateMs ++ " - " ++ fmtSheetDate newEndDateMs ++
        (if isGapPeriod then " (Gap)" else "")
      if !ss.templateExists then
        .error (vars.TemplateName ++ " sheet not found! Cannot duplicate to " ++
          "create sheet " ++ newSheetName)
      else
        let newSheet : TxSheet :=
          { name := newSheetName,
            startDate := dayStartMs newStartDateMs,
            endDate := dayEndMs newEndDateMs }
        let pos := idxOfSheet latest.name ss.sheets
        .ok (true,
          { ss with sheets :=
              ss.sheets.take pos ++ [newSheet] ++ ss.sheets.drop pos })

/-- `addTransactionSheets`: repeat `addTransactionSheet` until it returns
`false`, counting the sheets created.  The source loop is unbounded; this
model carries fuel and returns `none` when the fuel runs out before the
loop finishes. -/
def addTransactionSheetsFuel (vars : Variables) (now : Int) :
    Nat → Spreadsheet → Except String (Option (Nat × Spreadsheet))
  | 0, _ => .ok none
  | fuel + 1, ss =>
    match addTransactionSheet vars now ss with
    | .error e => .error e
    | .ok (false, ss') => .ok (some (0, ss'))
    | .ok (true, ss') =>
      (addTransactionSheetsFuel vars now fuel ss').map
        (Option.map (fun r => (r.1 + 1, r.2)))

end Budgeting

namespace Budgeting

open JsModel Regex Util

/-- `Util.areDatesEqual` as the split engine applies it to two date cells
(a blank cell reads back as the empty string). -/
def areSheetDatesEqual (a b : CellV) : Bool :=
  areDatesEqual (cellToDateArg a) (cellToDateArg b)

/-- `doTransactionRowInfosSeemEqual`: dates must be equal; names must be
identical, or their parts before a `|` (right-trimmed) must be identical,
or their leading thirds (of the shorter length, floored) must be
identical. -/
def doTransactionRowInfosSeemEqual (transactionInfo1 transactionInfo2 : TxRow) :
    Bool :=
  if !areSheetDatesEqual transactionInfo1.date transactionInfo2.date then
    false
  else if transactionInfo1.name ≠ transactionInfo2.name then
    if transactionInfo1.name = "" || transactionInfo2.name = "" then false
    else
      let firstPart1 := strTrimEnd (strBeforeBar transactionInfo1.name)
      let firstPart2 := strTrimEnd (strBeforeBar transactionInfo2.name)
      let nameEqual := firstPart1 = firstPart2
      let shorterThirdLength :=
        (min transactionInfo1.name.data.length
          transactionInfo2.name.data.length) / 3
      let nameEqual := nameEqual ||
        decide (strTake transactionInfo1.name shorterThirdLength =
          strTake transactionInfo2.name shorterThirdLength)
      nameEqual
  else true

/-- A fully blank transaction row. -/
def blankRow : TxRow := {}

/-- The transaction row at an index of a sheet (rows are addressed purely
by position; out-of-range reads yield a blank row and never occur on the
success paths). -/
def rowAt (sheet : TxSheet) (i : Nat) : TxRow :=
  sheet.rows.getD i blankRow

/-- The `!date && !name && !cost && !category && !type` test on a row's
extracted info (the `TransactionRowInfo` falsiness test). -/
def rowHasNoContent (r : TxRow) : Bool :=
  cellFalsy r.date && r.name = "" && cellFalsy r.cost &&
  r.category = "" && r.rtype = ""

/-- The group-growing loop of `splitTransaction`: the number of rows
starting at `j` that `doTransactionRowInfosSeemEqual` the group's first
row, stopping at the first mismatch; `fuel` is the number of rows left
before `TransactionsMax`. -/
def extendGroupCount (sheet : TxSheet) (first : TxRow) :
    Nat → Nat → Nat
  | _, 0 => 0
  | j, fuel + 1 =>
    if doTransactionRowInfosSeemEqual (rowAt sheet j) first then
      1 + extendGroupCount sheet first (j + 1) fuel
    else 0

/-- Clear row `a`, shift rows `[a, b)` down one position (row `b`, which
is empty, receives the last shifted row): the `copyTo`-then-clear block of
`splitTransaction`. -/
def shiftRowsDownOne (rows : List TxRow) (a b : Nat) : List TxRow :=
  rows.take a ++ [blankRow] ++ (rows.drop a).take (b - a) ++ rows.drop (b + 1)

/-- The cost expression written into the split row's first line:
`${cost}-R[groupLen]C[0]`, prefixed with `=` unless the original cost is
already a string starting with `=`. -/
def splitFirstCostText (cost : CellV) (groupLen : Nat) : String :=
  (if cellIsString cost && strStartsWith (cellTemplate cost) "=" then ""
   else "=") ++
  cellTemplate cost ++ "-R[" ++ String.mk (natToChars groupLen) ++ "]C[0]"

/-- The cost expression of the new trailing split row:
`=${TaxMultiplier}*(0)`. -/
def splitNewCostText (vars : Variables) : String :=
  "=" ++ ratToString vars.TaxMultiplier ++ "*(0)"

/-- `splitTransaction` from the current `budgeting.util` variant
(`src/unnamed/part_005`): grow the group of adjacent equal rows starting
at `transactionIndex`; reject an empty target row, a group reaching the
end of the transaction window, and a target whose predecessor already
matches it; then append a `=TaxMultiplier*(0)` row after the group
(shifting the following rows down one when that slot is occupied) and
rewrite the first row's cost as `original-minus-new` and its name with a
`|` delimiter.  Returns the updated sheet and the row range
`(transactionIndex, group length + 1)`.  All mutation happens after every
check has passed; an error leaves the sheet untouched. -/
def splitTransaction (vars : Variables) (sheet : TxSheet)
    (transactionIndex : Nat) : Except String (TxSheet × Nat × Nat) :=
  let transactionsMax := sheet.rows.length
  if transactionsMax ≤ transactionIndex then
    .error ("Somehow there are no transactions to split on sheet " ++
      sheet.name)
  else
    let firstRow := rowAt sheet transactionIndex
    if rowHasNoContent firstRow then
      .error ("Checked row " ++ String.mk (natToChars transactionIndex) ++
        " on sheet " ++ sheet.name ++
        ", but the transaction row has no content!")
    else
      let groupLen := 1 + extendGroupCount sheet firstRow
        (transactionIndex + 1) (transactionsMax - (transactionIndex + 1))
      if transactionsMax ≤ transactionIndex + groupLen then
        .error ("No room on sheet " ++ sheet.name ++ " to split group of " ++
          String.mk (natToChars groupLen) ++ "!")
      else if 0 < transactionIndex &&
          doTransactionRowInfosSeemEqual (rowAt sheet (transactionIndex - 1))
            firstRow then
        .error ("Transaction in sheet " ++ sheet.name ++ " at row " ++
          String.mk (natToChars transactionIndex) ++
          " seems to be in a transaction group already!")
      else
        let nextRowAfterGroup := rowAt sheet (transactionIndex + groupLen)
        let newFirstRow : TxRow :=
          { firstRow with
            name := firstRow.name ++
              (if strIncludesChar firstRow.name '|' then "" else " | "),
            cost := .str (splitFirstCostText firstRow.cost groupLen) }
        let newSplitRow : TxRow :=
          { date := newFirstRow.date, name := newFirstRow.name,
            cost := .str (splitNewCostText vars),
            category := newFirstRow.category, rtype := newFirstRow.rtype }
        let shifted : Except String (List TxRow) :=
          if !rowHasNoContent nextRowAfterGroup then
            let firstEmpty := firstEmptyTransactionIndex sheet.rows
            if transactionsMax < firstEmpty + 1 then
              .error ("There are not enough empty transaction rows in sheet "
                ++ sheet.name ++ " to get 1 transaction rows!")
            else if firstEmpty ≤ transactionIndex + groupLen then
              .error "The number of rows in the range must be at least 1."
            else
              .ok (shiftRowsDownOne sheet.rows (transactionIndex + groupLen)
                firstEmpty)
          else .ok sheet.rows
        match shifted with
        | .error e => .error e
        | .ok rows =>
          let rows := rows.set (transactionIndex + groupLen) newSplitRow
          let rows := rows.set transactionIndex
            { (rows.getD transactionIndex blankRow) with
              date := newFirstRow.date, name := newFirstRow.name,
              cost := newFirstRow.cost }
          .ok ({ sheet with rows := rows }, transactionIndex, groupLen + 1)

end Budgeting

namespace Formula

open JsModel

/-!
A small evaluator for the spreadsheet formula strings the split engine
writes (`=<number>-R[k]C[0]`, `=<TaxMultiplier>*(0)`, and the expressions
obtainable by further splits).  Grammar: left-associative `-`/`+` over
left-associative `*` over atoms (decimal numbers, unary minus, `R[k]C[0]`
references to a relative row in the same column, parentheses).  `ρ` gives
the evaluated value of the cell `k` rows below the formula's cell. -/

/-- Which production the fuelled parser is currently parsing; the tail
productions carry the left-associated accumulator. -/
inductive PK where
  | expr
  | exprTail (acc : ℚ)
  | mul
  | mulTail (acc : ℚ)
  | atom

/-- Fuelled recursive-descent parser covering all five productions
(structurally recursive on the fuel, hence kernel-computable). -/
def parseF (ρ : Int → ℚ) : Nat → PK → List Char → Option (ℚ × List Char)
  | 0, _, _ => none
  | fuel + 1, k, cs =>
    match k with
    | .expr =>
      match parseF ρ fuel .mul cs with
      | none => none
      | some (v, rest) => parseF ρ fuel (.exprTail v) rest
    | .exprTail acc =>
      match cs with
      | '-' :: t =>
        match parseF ρ fuel .mul t with
        | some (v, rest) => parseF ρ fuel (.exprTail (acc - v)) rest
        | none => none
      | '+' :: t =>
        match parseF ρ fuel .mul t with
        | some (v, rest) => parseF ρ fuel (.exprTail (acc + v)) rest
        | none => none
      | _ => some (acc, cs)
    | .mul =>
      match parseF ρ fuel .atom cs with
      | none => none
      | some (v, rest) => parseF ρ fuel (.mulTail v) rest
    | .mulTail acc =>
      match cs with
      | '*' :: t =>
        match parseF ρ fuel .atom t with
        | some (v, rest) => parseF ρ fuel (.mulTail (acc * v)) rest
        | none => none
      | _ => some (acc, cs)
    | .atom =>
      match cs with
      | '-' :: t => (parseF ρ fuel .atom t).map (fun v => (-v.1, v.2))
      | '(' :: t =>
        match parseF ρ fuel .expr t with
        | some (v, ')' :: rest) => some (v, rest)
        | _ => none
      | 'R' :: '[' :: t =>
        let neg : Bool := match t with
          | '-' :: _ => true
          | _ => false
        let t := match t with
          | '-' :: t' => t'
          | _ => t
        let ds := t.takeWhile isDigitChar
        let rest := t.dropWhile isDigitChar
        if ds.isEmpty then none
        else
          let refIdx : Int :=
            if neg then -(charsToNat ds : Int) else charsToNat ds
          match rest with
          | ']' :: 'C' :: '[' :: '0' :: ']' :: rest' => some (ρ refIdx, rest')
          | _ => none
      | _ =>
        let ds := cs.takeWhile isDigitChar
        let rest := cs.dropWhile isDigitChar
        if ds.isEmpty then none
        else
          match rest with
          | '.' :: t =>
            let fs := t.takeWhile isDigitChar
            let rest2 := t.dropWhile isDigitChar
            some ((charsToNat ds : ℚ) +
              (charsToNat fs : ℚ) / ((10 : ℚ) ^ fs.length), rest2)
          | _ => some ((charsToNat ds : ℚ), rest)

/-- Evaluate a formula cell string: a leading `=` followed by an
expression consuming the entire string. -/
def evalFormula (s : String) (ρ : Int → ℚ) : Option ℚ :=
  match s.data with
  | '=' :: rest =>
    match parseF ρ (3 * rest.length + 3) .expr rest with
    | some (v, []) => some v
    | _ => none
  | _ => none

end Formula

namespace Budgeting

open JsModel Regex Util Formula

/-- The diagnostic error the per-message loop produces for a message, if
any (the `${e}` rendering of a thrown `Error` is `Error: ` followed by its
message). -/
def messageOutcomeError (vars : Variables) (threadId : String)
    (m : Message) : Option String :=
  match processMessage vars m with
  | .error e => some (messageErrorText threadId m ("Error: " ++ e))
  | .ok _ => none

/-- The receipt the per-message loop appends for a message, if any. -/
def messageKeptReceipt (vars : Variables) (m : Message) :
    Option ReceiptInfoBase :=
  match processMessage vars m with
  | .error _ => none
  | .ok receipt =>
    if costFalsy receipt.cost && nameFalsy receipt.name then none
    else some receipt

/-- The note the per-message loop appends for a message, if any. -/
def messageNote (vars : Variables) (threadId : String) (m : Message) :
    Option String :=
  match getEmailAddress m.fromAddr with
  | .error _ => none
  | .ok fromA =>
    match getReceiptInfoMap vars fromA with
    | none => none
    | some getReceiptInfo =>
      match getReceiptInfo m with
      | .error _ => none
      | .ok receipt =>
        if costFalsy receipt.cost && nameFalsy receipt.name then
          some (notReceiptNoteText fromA threadId m)
        else none

/-- A Chase credit (refund) message: the subject of spec Example 2 and a
plain body containing a `Merchant` line. -/
def c7Message : Message :=
  { fromAddr := "Chase <no.reply.alerts@chase.com>",
    toAddr := "Me <me@example.com>",
    subject := "You have a $5.00 credit pending on your credit card",
    plainBody := "Hello card member\nMerchant    Example Store \nAmount   $5.00\n",
    date := 1700000000000, id := "c7msg", threadId := "c7thread" }

/-- Concrete thread list for the C3 witness: one thread with three
receipts (two sharing a date, listed out of order), one errored thread
without receipts (which synthesizes a placeholder receipt). -/
def c3Threads : List ThreadInfo :=
  [ { threadId := "a", lastMessageDate := 50,
      receiptInfos :=
        [ { date := .date 30, cost := some 3, name := some "B",
            threadId := "a" },
          { date := .date 10, cost := some 1, name := some "A",
            threadId := "a" },
          { date := .date 30, cost := some 7, name := some "C",
            threadId := "a" } ] },
    { threadId := "b", lastMessageDate := 20, errors := ["boom"] } ]

/-- Configuration used by the C5 witness. -/
def c5Vars : Variables :=
  { ForwardEmailAddress := "fwd@example.com", ForwardName := "Spouse",
    TaxMultiplier := 27/25, PayPeriodDays := 14, TemplateName := "Template" }

/-- A genuine Chase receipt message (processed before the failing one). -/
def c5GoodMessage : Message :=
  { fromAddr := "Chase <no.reply.alerts@chase.com>",
    toAddr := "me@example.com",
    subject := "Your $42.10 transaction with Example Store",
    plainBody := "b", date := 100, id := "m1", threadId := "t1" }

/-- A message from an unrecognized sender (classification fails with
`UnknownProvider`). -/
def c5BadMessage : Message :=
  { fromAddr := "Foo <foo@bar.com>", toAddr := "me@example.com",
    subject := "hello", plainBody := "b", date := 200, id := "m2",
    threadId := "t1" }

/-- A Chase refund message (processed after the failing one). -/
def c5RefundMessage : Message :=
  { fromAddr := "Chase <no.reply.alerts@chase.com>",
    toAddr := "me@example.com",
    subject := "You have a $5.00 credit pending on your credit card",
    plainBody := "x\nMerchant    Example Store \ny", date := 300, id := "m3",
    threadId := "t1" }

/-- The C5 witness thread: good, failing, good. -/
def c5Thread : ThreadRec :=
  { id := "t1", lastMessageDate := 300,
    messagesResult := .ok [c5GoodMessage, c5BadMessage, c5RefundMessage] }

/-- Configuration used by the C10 witness. -/
def c10Vars : Variables :=
  { ForwardEmailAddress := "fwd@example.com", ForwardName := "Spouse",
    TaxMultiplier := 27/25, PayPeriodDays := 14, TemplateName := "Template" }

/-- A Chase refund message for `$0.00` with no Merchant line in the body:
classification extracts amount `0` and no counterparty. -/
def c10Message : Message :=
  { fromAddr := "Chase <no.reply.alerts@chase.com>",
    toAddr := "me@example.com",
    subject := "You have a $0.00 credit pending on your credit card",
    plainBody := "no merchant line here", date := 400, id := "m4",
    threadId := "t2" }

/-- The receipt `c10Message` classifies to: amount exactly `0`,
counterparty absent. -/
def c10Receipt : ReceiptInfoBase :=
  { date := .date 400, cost := some 0, name := none, threadId := "t2",
    messageId := "m4" }

/-- An empty thread-state for the C10 witness. -/
def c10Ti : ThreadInfo :=
  { threadId := "t2", lastMessageDate := 400 }

/-- A transaction sheet whose parsed window is day 0 through day 13
(end-of-day), as `getTransactionSheetInfos` produces. -/
def c1Sheet : TxSheet :=
  { name := "1/1/70 - 1/14/70", startDate := 0,
    endDate := 14 * 86400000 - 1, rows := [] }

/-- A receipt dated exactly at the sheet's end date (the end-of-day
instant 23:59:59.999 of the window's last day). -/
def c1Receipt : ReceiptInfoBase :=
  { date := .date (14 * 86400000 - 1), threadId := "t" }

/-- The identifying fields of a receipt (everything except the baked-in
`errorMessage`/`note` annotations). -/
def receiptCore (r : ReceiptInfoBase) :
    DateVal × Option ℚ × Option String × String × String :=
  (r.date, r.cost, r.name, r.threadId, r.messageId)

/-- A receipt belonging to the errored C6 witness thread. -/
def c6Receipt1 : ReceiptInfoBase :=
  { date := .date 150, cost := some 9, name := some "Shop", threadId := "errored" }

/-- A receipt belonging to the clean C6 witness thread. -/
def c6Receipt2 : ReceiptInfoBase :=
  { date := .date 50, cost := some 4, name := some "Deli", threadId := "clean" }

/-- A C6 witness thread that produced a receipt and an error. -/
def c6ErroredThread : ThreadInfo :=
  { threadId := "errored", lastMessageDate := 200,
    receiptInfos := [c6Receipt1], errors := ["processing failed"] }

/-- A C6 witness thread with a receipt and no errors. -/
def c6CleanThread : ThreadInfo :=
  { threadId := "clean", lastMessageDate := 100, receiptInfos := [c6Receipt2] }

/-- A sheet with room for the C6 witness receipts. -/
def c6Sheet : TxSheet :=
  { name := "sheet1", startDate := 0, endDate := 1000,
    rows := [blankRow, blankRow, blankRow] }

/-- The sheet rows after the C6 witness run: the two receipts written into
the first empty rows (the errored thread's receipt carries its baked-in
error text). -/
def c6WrittenSheet : TxSheet :=
  { c6Sheet with
    rows :=
      [receiptToRow blankRow c6Receipt2,
       receiptToRow blankRow { c6Receipt1 with errorMessage := "processing failed" },
       blankRow] }

/-- The full result of the C6 witness run. -/
def c6Result : RecordResult :=
  { spreadsheet := { sheets := [c6WrittenSheet] },
    receiptInfosAdded := [("sheet1", 2)],
    markedThreadIds := ["clean"],
    numErrors := 1 }

/-- The C9 witness configuration: fortnightly pay periods. -/
def c9Vars : Variables :=
  { ForwardEmailAddress := "fwd@example.com", ForwardName := "Spouse",
    TaxMultiplier := 27/25, PayPeriodDays := 14, TemplateName := "Template" }

/-- The single existing transaction sheet of the C9 witness: a two-week
window covering days 0..13, so its end instant is day 13 at
23:59:59.999. -/
def c9Sheet : TxSheet :=
  { name := "1/1/2024 - 1/14/2024", startDate := 0,
    endDate := 13 * 86400000 + 86399999 }

/-- The C9 witness spreadsheet: just the one sheet, template present. -/
def c9SS : Spreadsheet := { sheets := [c9Sheet] }

/-- The C9 witness current time: day 20, six days past the latest
sheet's window. -/
def c9Now : Int := 20 * 86400000

/-- The C2 witness configuration (same shape as the others). -/
def c2Vars : Variables :=
  { ForwardEmailAddress := "fwd@example.com", ForwardName := "Spouse",
    TaxMultiplier := 27/25, PayPeriodDays := 14, TemplateName := "Template" }

/-- A transaction row used twice in the C2 witness sheet: two adjacent
identical rows form a group, so the second one is mid-group. -/
def c2Row : TxRow :=
  { date := .date 1704153600000, name := "COSTCO WHSE #0001",
    cost := .num 10 }

/-- The C2 witness sheet: rows 0 and 1 identical (one group), rows 2..4
empty. -/
def c2Sheet : TxSheet :=
  { name := "sheet1", startDate := 0, endDate := 1000,
    rows := [c2Row, c2Row, blankRow, blankRow, blankRow] }

/-- The C8 witness configuration: a four-decimal tax multiplier
`1.0825`. -/
def c8Vars : Variables :=
  { ForwardEmailAddress := "fwd@example.com", ForwardName := "Spouse",
    TaxMultiplier := 433/400, PayPeriodDays := 14, TemplateName := "Template" }

/-- The C8 witness target row: a `-$5.00` refund, exercising a negative
recorded cost. -/
def c8Row : TxRow :=
  { date := .date 1704153600000, name := "COSTCO WHSE", cost := .num (-5) }

/-- The C8 witness sheet: the target row followed by two empty rows. -/
def c8Sheet : TxSheet :=
  { name := "sheet1", startDate := 0, endDate := 1000,
    rows := [c8Row, blankRow, blankRow] }

/-- The sheet produced by the C8 witness split: the first row's cost is
now `=-5-R[1]C[0]` and its name gained the `|` delimiter, the appended
row's cost is `=1.0825*(0)`. -/
def c8Sheet2 : TxSheet :=
  { name := "sheet1", startDate := 0, endDate := 1000,
    rows := [{ date := .date 1704153600000, name := "COSTCO WHSE | ",
               cost := .str "=-5-R[1]C[0]" },
             { date := .date 1704153600000, name := "COSTCO WHSE | ",
               cost := .str "=1.0825*(0)" },
             blankRow] }

end Budgeting

namespace Util

open JsModel

/-- On two genuine dates, `areDatesEqual` is timestamp equality. -/
theorem areDatesEqual_date_date (a b : Int) :
    areDatesEqual (.date a) (.date b) = decide (a = b) := by
  simp [areDatesEqual]

end Util

namespace Budgeting

open JsModel Regex Util

theorem jsSortInsert_perm (cmp : α → α → Int) (x : α) (l : List α) :
    (jsSortInsert cmp x l).Perm (x :: l) := by
  induction l with
  | nil => simp [jsSortInsert]
  | cons y t ih =>
    by_cases h : cmp x y ≤ 0
    · simp [jsSortInsert, h]
    · simp only [jsSortInsert, if_neg h]
      exact ((ih.cons y).trans (List.Perm.swap x y t))

theorem jsSortStable_perm (cmp : α → α → Int) (l : List α) :
    (jsSortStable cmp l).Perm l := by
  induction l with
  | nil => simp [jsSortStable]
  | cons x t ih =>
    exact (jsSortInsert_perm cmp x (jsSortStable cmp t)).trans (ih.cons x)

theorem mem_jsSortInsert {cmp : α → α → Int} {x a : α} {l : List α} :
    a ∈ jsSortInsert cmp x l ↔ a = x ∨ a ∈ l := by
  constructor
  · intro h
    have := (jsSortInsert_perm cmp x l).mem_iff.mp h
    simpa using this
  · intro h
    apply (jsSortInsert_perm cmp x l).mem_iff.mpr
    simpa using h

theorem mem_jsSortStable {cmp : α → α → Int} {a : α} {l : List α} :
    a ∈ jsSortStable cmp l ↔ a ∈ l :=
  (jsSortStable_perm cmp l).mem_iff

theorem jsSortInsert_sorted_key {cmp : α → α → Int} {key : α → Int} {x : α}
    {l : List α} (hl : l.Pairwise (fun a b => key a ≤ key b))
    (hx : ∀ y ∈ l, (cmp x y ≤ 0 ↔ key x ≤ key y)) :
    (jsSortInsert cmp x l).Pairwise (fun a b => key a ≤ key b) := by
  induction l with
  | nil => simp [jsSortInsert]
  | cons y t ih =>
    rcases List.pairwise_cons.mp hl with ⟨hy, ht⟩
    by_cases h : cmp x y ≤ 0
    · have hxy : key x ≤ key y := (hx y (by simp)) |>.mp h
      simp only [jsSortInsert, if_pos h]
      refine List.pairwise_cons.mpr ⟨?_, hl⟩
      intro z hz
      rcases List.mem_cons.mp hz with rfl | hz'
      · exact hxy
      · exact le_trans hxy (hy z hz')
    · have hyx : key y ≤ key x := by
        have := (hx y (by simp))
        have hlt : ¬ key x ≤ key y := fun hk => h (this.mpr hk)
        omega
      simp only [jsSortInsert, if_neg h]
      refine List.pairwise_cons.mpr ⟨?_, ?_⟩
      · intro z hz
        rcases mem_jsSortInsert.mp hz with rfl | hz'
        · exact hyx
        · exact hy z hz'
      · exact ih ht (fun z hz => hx z (by simp [hz]))

theorem jsSortStable_sorted_key {cmp : α → α → Int} {key : α → Int}
    {l : List α}
    (hk : ∀ a ∈ l, ∀ b ∈ l, (cmp a b ≤ 0 ↔ key a ≤ key b)) :
    (jsSortStable cmp l).Pairwise (fun a b => key a ≤ key b) := by
  induction l with
  | nil => simp [jsSortStable]
  | cons x t ih =>
    simp only [jsSortStable]
    refine jsSortInsert_sorted_key ?_ ?_
    · exact ih (fun a ha b hb => hk a (by simp [ha]) b (by simp [hb]))
    · intro y hy
      exact hk x (by simp) y (by simp [mem_jsSortStable.mp hy])

theorem jsSortInsert_filter {cmp : α → α → Int} {p : α → Bool} {x : α}
    {l : List α}
    (hx : ∀ y ∈ l, p x = true → p y = true → cmp x y ≤ 0) :
    (jsSortInsert cmp x l).filter p =
      if p x then x :: l.filter p else l.filter p := by
  induction l with
  | nil => by_cases h : p x <;> simp [jsSortInsert, List.filter, h]
  | cons y t ih =>
    by_cases h : cmp x y ≤ 0
    · by_cases hpx : p x <;>
        simp [jsSortInsert, if_pos h, List.filter, hpx]
    · simp only [jsSortInsert, if_neg h]
      have ih' := ih (fun z hz => hx z (by simp [hz]))
      by_cases hpy : p y
      · by_cases hpx : p x
        · exact absurd (hx y (by simp) hpx hpy) h
        · simp [List.filter_cons, hpy, hpx, ih']
      · by_cases hpx : p x <;> simp [List.filter_cons, hpy, hpx, ih']

theorem jsSortStable_filter {cmp : α → α → Int} {p : α → Bool} {l : List α}
    (hp : ∀ a ∈ l, ∀ b ∈ l, p a = true → p b = true → cmp a b ≤ 0) :
    (jsSortStable cmp l).filter p = l.filter p := by
  induction l with
  | nil => simp [jsSortStable]
  | cons x t ih =>
    simp only [jsSortStable]
    rw [jsSortInsert_filter
      (fun y hy hpx hpy =>
        hp x (by simp) y (by simp [mem_jsSortStable.mp hy]) hpx hpy)]
    rw [ih (fun a ha b hb => hp a (by simp [ha]) b (by simp [hb]))]
    by_cases hpx : p x <;> simp [List.filter_cons, hpx]

end Budgeting

namespace Budgeting

open JsModel Regex Util

theorem compare_le_iff_time {a b : ReceiptInfoBase}
    (ha : a.date.isDate = true) (hb : b.date.isDate = true) :
    (compareReceiptInfosByDateAscending a b ≤ 0 ↔
      a.date.time ≤ b.date.time) := by
  rcases hda : a.date with ta | sa
  · rcases hdb : b.date with tb | sb
    · simp only [compareReceiptInfosByDateAscending, hda, hdb, jsGtDateVal,
        areDatesEqual, DateVal.time]
      split_ifs with h1 h2 <;> simp_all
    · rw [hdb] at hb; simp [DateVal.isDate] at hb
  · rw [hda] at ha; simp [DateVal.isDate] at ha

theorem time_eq_of_areDatesEqual {d : DateVal} {t : Int}
    (hd : d.isDate = true) (h : areDatesEqual d (.date t) = true) :
    d.time = t := by
  rcases d with td | sd
  · simpa [areDatesEqual, DateVal.time] using h
  · simp [DateVal.isDate] at hd

theorem compare_eq_zero_of_time_eq {a b : ReceiptInfoBase}
    (ha : a.date.isDate = true) (hb : b.date.isDate = true)
    (ht : a.date.time = b.date.time) :
    compareReceiptInfosByDateAscending a b = 0 := by
  rcases hda : a.date with ta | sa
  · rcases hdb : b.date with tb | sb
    · rw [hda, hdb] at ht
      simp only [DateVal.time] at ht
      simp [compareReceiptInfosByDateAscending, hda, hdb, jsGtDateVal,
        areDatesEqual, ht]
    · rw [hdb] at hb; simp [DateVal.isDate] at hb
  · rw [hda] at ha; simp [DateVal.isDate] at ha

/-- **C3.**  For every thread list whose flattened receipts all carry
genuine `Date` values (which is what the aggregator produces: receipt
dates come from `message.getDate()` and placeholder dates from
`thread.getLastMessageDate()`), the flattened receipt list returned for
placement is (1) a permutation of the pre-sort flat-mapped list, (2)
sorted non-decreasing by date, and (3) stable: for every date value, the
receipts whose date equals it under the explicit date-equality helper
`Util.areDatesEqual` appear in exactly their pre-sort (input) order. -/
theorem getAllReceiptInfos_sorted_and_stable (threadInfos : List ThreadInfo)
    (hd : ∀ r ∈ getAllReceiptInfosUnsorted threadInfos,
      r.date.isDate = true) :
    (getAllReceiptInfos threadInfos).Perm
      (getAllReceiptInfosUnsorted threadInfos) ∧
    (getAllReceiptInfos threadInfos).Pairwise
      (fun a b => a.date.time ≤ b.date.time) ∧
    (∀ t : Int,
      (getAllReceiptInfos threadInfos).filter
        (fun r => areDatesEqual r.date (.date t)) =
      (getAllReceiptInfosUnsorted threadInfos).filter
        (fun r => areDatesEqual r.date (.date t))) := by
  refine ⟨jsSortStable_perm _ _, ?_, ?_⟩
  · exact jsSortStable_sorted_key
      (fun a ha b hb => compare_le_iff_time (hd a ha) (hd b hb))
  · intro t
    apply jsSortStable_filter
    intro a ha b hb hpa hpb
    have hta := time_eq_of_areDatesEqual (hd a ha) hpa
    have htb := time_eq_of_areDatesEqual (hd b hb) hpb
    have := compare_eq_zero_of_time_eq (hd a ha) (hd b hb)
      (by rw [hta, htb])
    omega

end Budgeting

namespace Budgeting

open JsModel Regex Util

theorem processMessageInto_eq (vars : Variables) (tid : String)
    (ti : ThreadInfo) (m : Message) :
    processMessageInto vars tid ti m =
      { ti with
        receiptInfos := ti.receiptInfos ++ (messageKeptReceipt vars m).toList,
        notes := ti.notes ++ (messageNote vars tid m).toList,
        errors := ti.errors ++ (messageOutcomeError vars tid m).toList } := by
  unfold processMessageInto messageKeptReceipt messageNote
    messageOutcomeError processMessage
  cases h1 : getEmailAddress m.fromAddr with
  | error e => simp [h1]
  | ok fromA =>
    cases h2 : getReceiptInfoMap vars fromA with
    | none => simp [h1, h2]
    | some f =>
      cases h3 : f m with
      | error e => simp [h1, h2, h3]
      | ok r =>
        by_cases h4 : costFalsy r.cost && nameFalsy r.name <;>
          simp [h1, h2, h3, h4]

theorem foldl_processMessageInto (vars : Variables) (tid : String)
    (ms : List Message) (ti : ThreadInfo) :
    ms.foldl (processMessageInto vars tid) ti =
      { ti with
        receiptInfos :=
          ti.receiptInfos ++ ms.filterMap (messageKeptReceipt vars),
        notes := ti.notes ++ ms.filterMap (messageNote vars tid),
        errors := ti.errors ++ ms.filterMap (messageOutcomeError vars tid) } := by
  induction ms generalizing ti with
  | nil => simp
  | cons m ms ih =>
    rw [List.foldl_cons, processMessageInto_eq, ih]
    cases hk : messageKeptReceipt vars m <;>
      cases hn : messageNote vars tid m <;>
      cases he : messageOutcomeError vars tid m <;>
      simp [List.filterMap_cons, hk, hn, he]

end Budgeting

namespace Budgeting

open JsModel Regex Util

theorem buildThreadList_foldl (vars : Variables) (threads : List ThreadRec)
    (acc : List ThreadInfo × List String) :
    threads.foldl (buildThreadListStep vars) acc =
      (acc.1 ++ (threads.map (processThread vars)).filter
          ThreadInfo.hasInformation,
       acc.2 ++ threads.filterMap (fun tr =>
          let ti := processThread vars tr
          if ti.hasInformation then none
          else if ti.notes.length > 0 then
            some (ignoringThreadLogText tr ti)
          else none)) := by
  induction threads generalizing acc with
  | nil => simp
  | cons tr ts ih =>
    rw [List.foldl_cons, ih]
    unfold buildThreadListStep
    by_cases h1 : (processThread vars tr).hasInformation
    · simp [h1, List.filter_cons, List.filterMap_cons]
    · by_cases h2 : (processThread vars tr).notes.length > 0 <;>
        simp [h1, h2, List.filter_cons, List.filterMap_cons]

/-- **C4.**  A processed thread's `ThreadInfo` is kept by the `ThreadList`
constructor exactly when its receipts or its errors are non-empty
(`hasInformation`); a thread with zero receipts and zero errors is
discarded even when it has notes, and in that case (exactly then) a log
line recording the discarded notes is emitted. -/
theorem threadResult_retention (vars : Variables) (threads : List ThreadRec) :
    (buildThreadList vars threads).1 =
      (threads.map (processThread vars)).filter ThreadInfo.hasInformation ∧
    (buildThreadList vars threads).2 =
      threads.filterMap (fun tr =>
        let ti := processThread vars tr
        if ti.hasInformation then none
        else if ti.notes.length > 0 then some (ignoringThreadLogText tr ti)
        else none) ∧
    (∀ ti : ThreadInfo,
      ti.hasInformation = true ↔ (ti.receiptInfos ≠ [] ∨ ti.errors ≠ [])) := by
  refine ⟨?_, ?_, ?_⟩
  · rw [buildThreadList, buildThreadList_foldl]; simp
  · rw [buildThreadList, buildThreadList_foldl]; simp
  · intro ti
    simp [ThreadInfo.hasInformation, List.length_pos]

/-- **C5.**  When any single message of a thread fails classification
(unknown provider, unresolvable forward, or any exception while
extracting), the aggregator appends exactly one diagnostic error for it
and still processes every other message of the thread: the thread's
errors are the per-message diagnostics in message order with the failed
message contributing its one error, and the thread's kept receipts are
exactly those of the surrounding messages. -/
theorem thread_errors_isolated (vars : Variables) (tr : ThreadRec)
    (pre post : List Message) (m : Message) (e : String)
    (hms : tr.messagesResult = .ok (pre ++ m :: post))
    (hm : processMessage vars m = .error e) :
    (processThread vars tr).errors =
      pre.filterMap (messageOutcomeError vars tr.id) ++
      messageErrorText tr.id m ("Error: " ++ e) ::
        post.filterMap (messageOutcomeError vars tr.id) ∧
    (processThread vars tr).receiptInfos =
      pre.filterMap (messageKeptReceipt vars) ++
      post.filterMap (messageKeptReceipt vars) := by
  simp only [processThread, hms]
  rw [foldl_processMessageInto]
  constructor <;>
    simp [List.filterMap_append, List.filterMap_cons,
      messageOutcomeError, messageKeptReceipt, hm]

/-- **C10.**  The aggregator's "not a receipt" test uses JavaScript
falsiness on both extracted fields: a classified message whose amount is
`0` (or `NaN`/absent, both modelled by `none`) and whose counterparty is
absent or empty is folded into the thread's notes, appends no receipt and
no error — an amount of exactly `0` is indistinguishable from an absent
amount at this decision point. -/
theorem zero_cost_message_becomes_note (vars : Variables) (tid : String)
    (ti : ThreadInfo) (m : Message) (r : ReceiptInfoBase)
    (hr : processMessage vars m = .ok r)
    (hc : r.cost = some 0 ∨ r.cost = none)
    (hn : r.name = none ∨ r.name = some "") :
    (processMessageInto vars tid ti m).receiptInfos = ti.receiptInfos ∧
    (processMessageInto vars tid ti m).errors = ti.errors ∧
    (∃ fromA, getEmailAddress m.fromAddr = .ok fromA ∧
      (processMessageInto vars tid ti m).notes =
        ti.notes ++ [notReceiptNoteText fromA tid m]) := by
  have hcf : costFalsy r.cost = true := by
    rcases hc with h | h <;> simp [h, costFalsy]
  have hnf : nameFalsy r.name = true := by
    rcases hn with h | h <;> simp [h, nameFalsy]
  unfold processMessage at hr
  cases h1 : getEmailAddress m.fromAddr with
  | error e => simp [h1] at hr
  | ok fromA =>
    simp only [h1] at hr
    cases h2 : getReceiptInfoMap vars fromA with
    | none => simp [h2] at hr
    | some f =>
      simp only [h2] at hr
      cases h3 : f m with
      | error e => simp [h3] at hr
      | ok r' =>
        simp only [h3, Except.ok.injEq] at hr
        subst hr
        unfold processMessageInto
        simp [h1, h2, h3, hcf, hnf]

end Budgeting

namespace Budgeting

open JsModel Regex Util

unseal Rat.add Rat.mul Rat.sub Rat.inv Rat.ofScientific in
/-- **C7.**  The Chase message with subject
`You have a $5.00 credit pending on your credit card` and a plain body
with a `Merchant    Example Store` line classifies to a receipt with
amount `-5.00` (the refund pattern negates the captured positive
magnitude) and counterparty `Example Store` taken from the body. -/
theorem chase_refund_classification :
    (getReceiptInfoChase c7Message).cost = some (-5) ∧
    (getReceiptInfoChase c7Message).name = some "Example Store" := by
  decide

/-- Witness for the C3 theorem at `c3Threads`. -/
theorem getAllReceiptInfos_sorted_and_stable_witness :
    (∀ r ∈ getAllReceiptInfosUnsorted c3Threads, r.date.isDate = true) ∧
    ((getAllReceiptInfos c3Threads).Perm
        (getAllReceiptInfosUnsorted c3Threads) ∧
      (getAllReceiptInfos c3Threads).Pairwise
        (fun a b => a.date.time ≤ b.date.time) ∧
      (∀ t : Int,
        (getAllReceiptInfos c3Threads).filter
          (fun r => areDatesEqual r.date (.date t)) =
        (getAllReceiptInfosUnsorted c3Threads).filter
          (fun r => areDatesEqual r.date (.date t)))) :=
  ⟨by decide, getAllReceiptInfos_sorted_and_stable c3Threads (by decide)⟩

unseal Rat.add Rat.mul Rat.sub Rat.inv Rat.ofScientific in
/-- Witness for the C5 theorem: the middle message of a three-message
thread fails with `UnknownProvider`. -/
theorem thread_errors_isolated_witness :
    c5Thread.messagesResult =
      .ok ([c5GoodMessage] ++ c5BadMessage :: [c5RefundMessage]) ∧
    processMessage c5Vars c5BadMessage =
      .error "No function to handle receipt message from foo@bar.com" ∧
    ((processThread c5Vars c5Thread).errors =
      [c5GoodMessage].filterMap (messageOutcomeError c5Vars c5Thread.id) ++
      messageErrorText c5Thread.id c5BadMessage
          ("Error: " ++ "No function to handle receipt message from foo@bar.com") ::
        [c5RefundMessage].filterMap (messageOutcomeError c5Vars c5Thread.id) ∧
     (processThread c5Vars c5Thread).receiptInfos =
      [c5GoodMessage].filterMap (messageKeptReceipt c5Vars) ++
      [c5RefundMessage].filterMap (messageKeptReceipt c5Vars)) :=
  ⟨rfl, by decide,
    thread_errors_isolated c5Vars c5Thread [c5GoodMessage] [c5RefundMessage]
      c5BadMessage "No function to handle receipt message from foo@bar.com"
      rfl (by decide)⟩

unseal Rat.add Rat.mul Rat.sub Rat.inv Rat.ofScientific in
/-- Witness for the C10 theorem: a `$0.00` refund message is folded into
the notes. -/
theorem zero_cost_message_becomes_note_witness :
    processMessage c10Vars c10Message = .ok c10Receipt ∧
    ((processMessageInto c10Vars "t2" c10Ti c10Message).receiptInfos =
        c10Ti.receiptInfos ∧
      (processMessageInto c10Vars "t2" c10Ti c10Message).errors =
        c10Ti.errors ∧
      (∃ fromA, getEmailAddress c10Message.fromAddr = .ok fromA ∧
        (processMessageInto c10Vars "t2" c10Ti c10Message).notes =
          c10Ti.notes ++ [notReceiptNoteText fromA "t2" c10Message])) :=
  ⟨by decide,
    zero_cost_message_becomes_note c10Vars "t2" c10Ti c10Message c10Receipt
      (by decide) (Or.inl rfl) (Or.inl rfl)⟩

end Budgeting

namespace Budgeting

open JsModel Regex Util

/-- Counterexample to C1 as stated: the receipt's date lies in the
partition's window `[startDate, endDate]` inclusive on both ends, yet the
placement step assigns it to no partition — the grouping predicate is
`startDate <= date && date < endDate`, half-open at the end. -/
theorem placement_inclusive_window_counterexample :
    (c1Sheet.startDate ≤ 14 * 86400000 - 1 ∧
      (14 * 86400000 - 1 : Int) ≤ c1Sheet.endDate) ∧
    findTransactionSheetForReceipt [c1Sheet] c1Receipt = none := by
  decide

/-- **C1 (amended).**  The placement step assigns a receipt to a partition
exactly when the receipt's date lies in the half-open window
`[startDate, endDate)` — a receipt dated exactly at the end-of-day
`endDate` instant matches no partition — choosing the first such
partition in tab order; and a receipt with no matching partition makes
the grouping pass fail with a not-found error rather than being silently
dropped. -/
theorem placement_half_open_window (sheets : List TxSheet)
    (r : ReceiptInfoBase) (t : Int) (hd : r.date = .date t) :
    ((findTransactionSheetForReceipt sheets r).isSome ↔
      ∃ s ∈ sheets, s.startDate ≤ t ∧ t < s.endDate) ∧
    (∀ s, findTransactionSheetForReceipt sheets r = some s →
      s ∈ sheets ∧ s.startDate ≤ t ∧ t < s.endDate) ∧
    (∀ receipts : List ReceiptInfoBase, r ∈ receipts →
      findTransactionSheetForReceipt sheets r = none →
      ∃ e, groupReceiptsBySheet sheets receipts = .error e) := by
  have hpred : ∀ s : TxSheet,
      receiptDateInSheet r.date s = (decide (s.startDate ≤ t) &&
        decide (t < s.endDate)) := by
    intro s; rw [hd]; rfl
  refine ⟨?_, ?_, ?_⟩
  · rw [findTransactionSheetForReceipt, List.find?_isSome]
    constructor
    · rintro ⟨s, hs, hps⟩
      rw [hpred s] at hps
      exact ⟨s, hs, by simpa using hps⟩
    · rintro ⟨s, hs, h1, h2⟩
      exact ⟨s, hs, by rw [hpred s]; simp [h1, h2]⟩
  · intro s hfind
    have hmem := List.mem_of_find?_eq_some hfind
    have hps := List.find?_some hfind
    rw [hpred s] at hps
    exact ⟨hmem, by simpa using hps⟩
  · intro receipts hmem hnone
    have : (receipts.find? (fun x =>
        (findTransactionSheetForReceipt sheets x).isNone)).isSome := by
      rw [List.find?_isSome]
      exact ⟨r, hmem, by simp [hnone]⟩
    unfold groupReceiptsBySheet
    cases hfind : receipts.find? (fun x =>
        (findTransactionSheetForReceipt sheets x).isNone) with
    | none => rw [hfind] at this; simp at this
    | some rr => exact ⟨_, rfl⟩

/-- Witness for the amended C1 theorem: a receipt dated strictly inside
the window is placed; the theorem's characterization applied at the
end-of-day receipt together with the not-found error. -/
theorem placement_half_open_window_witness :
    c1Receipt.date = .date (14 * 86400000 - 1) ∧
    (((findTransactionSheetForReceipt [c1Sheet] c1Receipt).isSome ↔
      ∃ s ∈ [c1Sheet], s.startDate ≤ 14 * 86400000 - 1 ∧
        (14 * 86400000 - 1 : Int) < s.endDate) ∧
    (∀ s, findTransactionSheetForReceipt [c1Sheet] c1Receipt = some s →
      s ∈ [c1Sheet] ∧ s.startDate ≤ 14 * 86400000 - 1 ∧
        (14 * 86400000 - 1 : Int) < s.endDate) ∧
    (∀ receipts : List ReceiptInfoBase, c1Receipt ∈ receipts →
      findTransactionSheetForReceipt [c1Sheet] c1Receipt = none →
      ∃ e, groupReceiptsBySheet [c1Sheet] receipts = .error e)) :=
  ⟨rfl, placement_half_open_window [c1Sheet] c1Receipt (14 * 86400000 - 1) rfl⟩

end Budgeting

namespace Budgeting

open JsModel Regex Util

theorem markingPass_foldl (threadInfos : List ThreadInfo)
    (shouldMark : Bool) (acc : List String × Nat) :
    threadInfos.foldl
      (fun acc threadInfo =>
        if threadInfo.errors.length > 0 then
          (acc.1, acc.2 + threadInfo.errors.length)
        else if shouldMark then (acc.1 ++ [threadInfo.threadId], acc.2)
        else acc)
      acc =
      (acc.1 ++
        (if shouldMark then
          (threadInfos.filter (fun ti => ti.errors.length = 0)).map
            ThreadInfo.threadId
        else []),
       acc.2 + (threadInfos.map (fun ti => ti.errors.length)).sum) := by
  induction threadInfos generalizing acc with
  | nil => simp
  | cons ti ts ih =>
    rw [List.foldl_cons, ih]
    by_cases h1 : ti.errors.length > 0
    · have h1' : ¬ ti.errors = [] := by
        intro h0
        rw [h0] at h1
        simp at h1
      cases shouldMark <;>
        simp [h1, h1', List.filter_cons, Nat.add_assoc, Nat.add_comm,
          Nat.add_left_comm]
    · have h1' : ti.errors = [] := by
        cases h0 : ti.errors with
        | nil => rfl
        | cons a t => rw [h0] at h1; simp at h1
      cases shouldMark <;>
        simp [h1, h1', List.filter_cons, Nat.add_assoc, Nat.add_comm,
          Nat.add_left_comm]

theorem markingPass_spec (threadInfos : List ThreadInfo) (shouldMark : Bool) :
    markingPass threadInfos shouldMark =
      ((if shouldMark then
          (threadInfos.filter (fun ti => ti.errors.length = 0)).map
            ThreadInfo.threadId
        else []),
       (threadInfos.map (fun ti => ti.errors.length)).sum) := by
  unfold markingPass
  rw [markingPass_foldl]
  simp

theorem receiptCore_setHeadError (e : String) (l : List ReceiptInfoBase) :
    (setHeadError e l).map receiptCore = l.map receiptCore := by
  cases l <;> simp [setHeadError, receiptCore]

theorem receiptCore_setHeadNote (n : String) (l : List ReceiptInfoBase) :
    (setHeadNote n l).map receiptCore = l.map receiptCore := by
  cases l <;> simp [setHeadNote, receiptCore]

/-- **C6.**  During the recording pass, the mark-as-processed step is
applied (when marking is requested and the pass completes) to exactly the
threads whose errors list is empty — a thread with errors is never
marked, whatever the outcome of the pass — and the receipts of errored
threads are still part of the flattened list written to the ledger (only
their error/note annotations are rewritten). -/
theorem errored_threads_not_marked (threadInfos : List ThreadInfo)
    (shouldMark : Bool) (ss : Spreadsheet) :
    (∀ res, recordReceipts threadInfos shouldMark ss = .ok res →
      res.markedThreadIds =
        if shouldMark then
          (threadInfos.filter (fun ti => ti.errors.length = 0)).map
            ThreadInfo.threadId
        else []) ∧
    (∀ ti ∈ threadInfos, ∀ r ∈ ti.receiptInfos,
      receiptCore r ∈ (getAllReceiptInfos threadInfos).map receiptCore) := by
  constructor
  · intro res hres
    unfold recordReceipts at hres
    cases hw : recordReceiptsWrite threadInfos ss with
    | error e => rw [hw] at hres; cases hres
    | ok p =>
      rw [hw] at hres
      cases hres
      simp [markingPass_spec]
  · intro ti hti r hr
    have hperm : ((getAllReceiptInfos threadInfos).map receiptCore).Perm
        ((getAllReceiptInfosUnsorted threadInfos).map receiptCore) :=
      (jsSortStable_perm _ _).map receiptCore
    rw [hperm.mem_iff]
    unfold getAllReceiptInfosUnsorted
    rw [List.map_flatMap]
    rw [List.mem_flatMap]
    refine ⟨ti, hti, ?_⟩
    have hne : ¬ ti.receiptInfos.length = 0 := by
      intro h0
      rw [List.length_eq_zero] at h0
      rw [h0] at hr
      cases hr
    by_cases he : ti.errors.length > 0 <;> by_cases hn : ti.notes.length > 0 <;>
      simp [hne, he, hn, receiptCore_setHeadError, receiptCore_setHeadNote] <;>
      exact ⟨r, hr, rfl⟩

end Budgeting

namespace Budgeting

open JsModel Regex Util

unseal Rat.add Rat.mul Rat.sub Rat.inv Rat.ofScientific in
/-- Witness for the C6 theorem: with marking requested, the clean thread
is marked, the errored thread is not, and the errored thread's receipt is
still in the recorded list. -/
theorem errored_threads_not_marked_witness :
    (recordReceipts [c6ErroredThread, c6CleanThread] true
        { sheets := [c6Sheet] } = .ok c6Result ∧
      c6Result.markedThreadIds = ["clean"]) ∧
    c6Receipt1 ∈ c6ErroredThread.receiptInfos ∧
    receiptCore c6Receipt1 ∈
      (getAllReceiptInfos [c6ErroredThread, c6CleanThread]).map receiptCore := by
  refine ⟨⟨by decide, ?_⟩, by decide, ?_⟩
  · have h := (errored_threads_not_marked [c6ErroredThread, c6CleanThread]
      true { sheets := [c6Sheet] }).1 c6Result (by decide)
    rw [h]
    decide
  · exact (errored_threads_not_marked [c6ErroredThread, c6CleanThread]
      true { sheets := [c6Sheet] }).2 c6ErroredThread (by decide) c6Receipt1
      (by decide)

end Budgeting

namespace Budgeting

open JsModel Regex Util

theorem idxOfSheet_le_length (name : String) (l : List TxSheet) :
    idxOfSheet name l ≤ l.length := by
  induction l with
  | nil => simp [idxOfSheet]
  | cons s t ih =>
    by_cases h : s.name = name <;> simp [idxOfSheet, h]
    omega

theorem msDay_decomp (k r : Int) (h0 : 0 ≤ r) (h1 : r < msPerDay) :
    msDay (k * msPerDay + r) = k := by
  unfold msDay msPerDay
  rw [Int.fdiv_eq_ediv _ (by norm_num)]
  unfold msPerDay at h1
  omega

theorem sheetCmp_le_iff (x h : TxSheet) :
    (compareTransactionSheetInfosByStartDateDescending x h ≤ 0 ↔
      h.startDate < x.startDate) := by
  unfold compareTransactionSheetInfosByStartDateDescending
  by_cases hgt : x.startDate > h.startDate <;> simp [hgt]

theorem jsSortStable_sheets_head_max (sheets : List TxSheet)
    (hne : sheets ≠ []) :
    ∃ latest rest,
      jsSortStable compareTransactionSheetInfosByStartDateDescending sheets =
        latest :: rest ∧ latest ∈ sheets ∧
      ∀ s ∈ sheets, s.startDate ≤ latest.startDate := by
  induction sheets with
  | nil => exact absurd rfl hne
  | cons x l ih =>
    cases l with
    | nil =>
      refine ⟨x, [], ?_, by simp, by simp⟩
      simp [jsSortStable, jsSortInsert]
    | cons y l' =>
      obtain ⟨h, t, hsort, hmem, hmax⟩ := ih (by simp)
      have hunf : jsSortStable compareTransactionSheetInfosByStartDateDescending
          (x :: y :: l') =
          jsSortInsert compareTransactionSheetInfosByStartDateDescending x
            (jsSortStable compareTransactionSheetInfosByStartDateDescending
              (y :: l')) := rfl
      have hins : jsSortInsert compareTransactionSheetInfosByStartDateDescending
          x (h :: t) =
          if compareTransactionSheetInfosByStartDateDescending x h ≤ 0 then
            x :: h :: t
          else h :: jsSortInsert
            compareTransactionSheetInfosByStartDateDescending x t := rfl
      by_cases hc :
          compareTransactionSheetInfosByStartDateDescending x h ≤ 0
      · have hgt : h.startDate < x.startDate := (sheetCmp_le_iff x h).mp hc
        refine ⟨x, h :: t, ?_, by simp, ?_⟩
        · rw [hunf, hsort, hins, if_pos hc]
        · intro s hs
          rcases List.mem_cons.mp hs with rfl | hs'
          · omega
          · have := hmax s hs'
            omega
      · have hle : x.startDate ≤ h.startDate := by
          have := (sheetCmp_le_iff x h)
          omega
        refine ⟨h, jsSortInsert
            compareTransactionSheetInfosByStartDateDescending x t, ?_,
          List.mem_cons_of_mem x hmem, ?_⟩
        · rw [hunf, hsort, hins, if_neg hc]
        · intro s hs
          rcases List.mem_cons.mp hs with rfl | hs'
          · exact hle
          · exact hmax s hs'

theorem addTransactionSheet_false_eq (vars : Variables) (now : Int)
    (ss ss' : Spreadsheet)
    (h : addTransactionSheet vars now ss = .ok (false, ss')) : ss' = ss := by
  unfold addTransactionSheet at h
  cases hs : jsSortStable compareTransactionSheetInfosByStartDateDescending
      ss.sheets with
  | nil => simp only [hs] at h; cases h
  | cons latest rest =>
    simp only [hs] at h
    by_cases hnow : now ≤ latest.endDate
    · rw [if_pos hnow] at h
      cases h
      rfl
    · rw [if_neg hnow] at h
      by_cases htm : ss.templateExists <;> simp [htm] at h

theorem addTransactionSheet_true_length (vars : Variables) (now : Int)
    (ss ss' : Spreadsheet)
    (h : addTransactionSheet vars now ss = .ok (true, ss')) :
    ss'.sheets.length = ss.sheets.length + 1 := by
  unfold addTransactionSheet at h
  cases hs : jsSortStable compareTransactionSheetInfosByStartDateDescending
      ss.sheets with
  | nil => simp only [hs] at h; cases h
  | cons latest rest =>
    simp only [hs] at h
    by_cases hnow : now ≤ latest.endDate
    · rw [if_pos hnow] at h; cases h
    · rw [if_neg hnow] at h
      by_cases htm : ss.templateExists
      · simp only [htm, Bool.not_true, Bool.false_eq_true, if_false,
          Except.ok.injEq, Prod.mk.injEq] at h
        obtain ⟨-, h2⟩ := h
        subst h2
        have hle := idxOfSheet_le_length latest.name ss.sheets
        simp [List.length_take, List.length_drop]
        omega
      · simp [htm] at h

theorem addTransactionSheetsFuel_count (vars : Variables) (now : Int) :
    ∀ (fuel : Nat) (ss : Spreadsheet) (n : Nat) (ss' : Spreadsheet),
      addTransactionSheetsFuel vars now fuel ss = .ok (some (n, ss')) →
      ss'.sheets.length = ss.sheets.length + n := by
  intro fuel
  induction fuel with
  | zero =>
    intro ss n ss' h
    simp [addTransactionSheetsFuel] at h
  | succ f ih =>
    intro ss n ss' h
    unfold addTransactionSheetsFuel at h
    cases hstep : addTransactionSheet vars now ss with
    | error e => simp only [hstep] at h; cases h
    | ok p =>
      rcases p with ⟨b, ss2⟩
      cases b
      · simp only [hstep, Except.ok.injEq, Option.some.injEq,
          Prod.mk.injEq] at h
        obtain ⟨h1, h2⟩ := h
        subst h1
        subst h2
        rw [addTransactionSheet_false_eq vars now ss ss2 hstep]
        omega
      · simp only [hstep] at h
        cases hr : addTransactionSheetsFuel vars now f ss2 with
        | error e => rw [hr] at h; cases h
        | ok o =>
          rw [hr] at h
          cases o with
          | none => simp [Except.map] at h
          | some q =>
            rcases q with ⟨n', ss''⟩
            simp only [Except.map, Option.map, Except.ok.injEq,
              Option.some.injEq, Prod.mk.injEq] at h
            obtain ⟨h1, h2⟩ := h
            subst h1
            subst h2
            have hl2 := addTransactionSheet_true_length vars now ss ss2 hstep
            have hrec := ih ss2 n' ss'' hr
            omega

/-- **C9.**  Catch-up semantics of `addTransactionSheet`: with the sheets
sorted by start date descending (so `latest` really has the maximal start
date among the sheets) and the template present, (1) when `now` still
falls on or before the latest sheet's end instant the function returns
`false` and leaves the spreadsheet unchanged; (2) when `now` is past that
instant it returns `true` and inserts exactly one new sheet whose parsed
window starts at midnight of the day after the latest end day `e` and
ends `PayPeriodDays − 1` days later at 23:59:59.999 — a span of exactly
`PayPeriodDays` days; and (3) the repeat-until-false driver
`addTransactionSheets` returns the number of sheets created: whenever it
terminates having created `n` sheets, the sheet list grew by exactly
`n`. -/
theorem addTransactionSheet_catchup (vars : Variables) (now : Int)
    (ss : Spreadsheet) (latest : TxSheet) (rest : List TxSheet) (e : Int)
    (hsort : jsSortStable compareTransactionSheetInfosByStartDateDescending
      ss.sheets = latest :: rest)
    (htmpl : ss.templateExists = true)
    (hend : latest.endDate = e * msPerDay + (msPerDay - 1)) :
    (∀ s ∈ ss.sheets, s.startDate ≤ latest.startDate) ∧
    (now ≤ latest.endDate →
      addTransactionSheet vars now ss = .ok (false, ss)) ∧
    (latest.endDate < now →
      ∃ ss2 pos nm,
        addTransactionSheet vars now ss = .ok (true, ss2) ∧
        pos ≤ ss.sheets.length ∧
        ss2.sheets = ss.sheets.take pos ++
          [{ name := nm, startDate := (e + 1) * msPerDay,
             endDate := (e + vars.PayPeriodDays) * msPerDay + (msPerDay - 1),
             rows := [] }] ++ ss.sheets.drop pos) ∧
    (∀ fuel n ss2,
      addTransactionSheetsFuel vars now fuel ss = .ok (some (n, ss2)) →
      ss2.sheets.length = ss.sheets.length + n) := by
  have hne : ss.sheets ≠ [] := by
    intro h0
    rw [h0] at hsort
    simp [jsSortStable] at hsort
  refine ⟨?_, ?_, ?_, ?_⟩
  · obtain ⟨l2, r2, hs2, hmem2, hmax2⟩ :=
      jsSortStable_sheets_head_max ss.sheets hne
    rw [hsort] at hs2
    injection hs2 with h1 h2
    subst h1
    exact hmax2
  · intro hnow
    unfold addTransactionSheet
    simp only [hsort]
    rw [if_pos hnow]
  · intro hnow
    have hstart : dayStartMs (latest.endDate + msHalfDay) =
        (e + 1) * msPerDay := by
      unfold dayStartMs
      have hsum : latest.endDate + msHalfDay =
          (e + 1) * msPerDay + 43199999 := by
        rw [hend]; unfold msPerDay msHalfDay; ring
      rw [hsum, msDay_decomp (e + 1) 43199999 (by norm_num)
        (by unfold msPerDay; norm_num)]
    have hendd : dayEndMs (latest.endDate +
        (vars.PayPeriodDays - 1) * msPerDay + msHalfDay) =
        (e + vars.PayPeriodDays) * msPerDay + (msPerDay - 1) := by
      unfold dayEndMs
      have hsum : latest.endDate +
          (vars.PayPeriodDays - 1) * msPerDay + msHalfDay =
          (e + vars.PayPeriodDays) * msPerDay + 43199999 := by
        rw [hend]; unfold msPerDay msHalfDay; ring
      rw [hsum, msDay_decomp (e + vars.PayPeriodDays) 43199999 (by norm_num)
        (by unfold msPerDay; norm_num)]
    have hpos := idxOfSheet_le_length latest.name ss.sheets
    unfold addTransactionSheet
    simp only [hsort]
    rw [if_neg (not_le.mpr hnow)]
    simp only [htmpl, Bool.not_true, Bool.false_eq_true, if_false]
    rw [hstart, hendd]
    exact ⟨_, idxOfSheet latest.name ss.sheets, _, rfl, hpos, rfl⟩
  · exact fun fuel n ss2 h =>
      addTransactionSheetsFuel_count vars now fuel ss n ss2 h

/-- C9 at a concrete input: one sheet ending on day 13, "now" on day 20,
14-day pay periods; the theorem's hypotheses hold by evaluation. -/
theorem addTransactionSheet_catchup_witness :
    (∀ s ∈ c9SS.sheets, s.startDate ≤ c9Sheet.startDate) ∧
    (c9Now ≤ c9Sheet.endDate →
      addTransactionSheet c9Vars c9Now c9SS = .ok (false, c9SS)) ∧
    (c9Sheet.endDate < c9Now →
      ∃ ss2 pos nm,
        addTransactionSheet c9Vars c9Now c9SS = .ok (true, ss2) ∧
        pos ≤ c9SS.sheets.length ∧
        ss2.sheets = c9SS.sheets.take pos ++
          [{ name := nm, startDate := (13 + 1) * msPerDay,
             endDate := (13 + c9Vars.PayPeriodDays) * msPerDay +
               (msPerDay - 1), rows := [] }] ++ c9SS.sheets.drop pos) ∧
    (∀ fuel n ss2,
      addTransactionSheetsFuel c9Vars c9Now fuel c9SS =
        .ok (some (n, ss2)) →
      ss2.sheets.length = c9SS.sheets.length + n) :=
  addTransactionSheet_catchup c9Vars c9Now c9SS c9Sheet [] 13 rfl rfl
    (by decide)

/-- **C2.**  `splitTransaction` rejects a mid-group target: whenever the
row immediately before `transactionIndex` is judged equal to the target
row by `doTransactionRowInfosSeemEqual`, the call returns an error (for
every sheet and every such index).  In `splitTransaction` every mutation
of the sheet happens only on the success path, after all checks have
passed, so an error result leaves the rows of the sheet completely
unchanged — the model returns the untouched `sheet` unmodified inside
`.ok` only, and an `.error` carries no sheet at all. -/
theorem split_rejects_mid_group (vars : Variables) (sheet : TxSheet)
    (i : Nat) (hi : 0 < i)
    (heq : doTransactionRowInfosSeemEqual (rowAt sheet (i - 1))
      (rowAt sheet i) = true) :
    ∃ msg, splitTransaction vars sheet i = .error msg := by
  simp only [splitTransaction]
  by_cases h1 : sheet.rows.length ≤ i
  · rw [if_pos h1]
    exact ⟨_, rfl⟩
  · rw [if_neg h1]
    by_cases h2 : rowHasNoContent (rowAt sheet i) = true
    · rw [if_pos h2]
      exact ⟨_, rfl⟩
    · rw [if_neg h2]
      by_cases h3 : sheet.rows.length ≤ i + (1 + extendGroupCount sheet
          (rowAt sheet i) (i + 1) (sheet.rows.length - (i + 1)))
      · rw [if_pos h3]
        exact ⟨_, rfl⟩
      · rw [if_neg h3]
        have h4 : (decide (0 < i) &&
            doTransactionRowInfosSeemEqual (rowAt sheet (i - 1))
              (rowAt sheet i)) = true := by
          simp [hi, heq]
        rw [if_pos h4]
        exact ⟨_, rfl⟩

/-- C2 at a concrete input: the second of two adjacent identical rows is
a mid-group target, and the split is rejected; the hypotheses hold by
evaluation. -/
theorem split_rejects_mid_group_witness :
    (0 < 1 ∧ doTransactionRowInfosSeemEqual (rowAt c2Sheet 0)
      (rowAt c2Sheet 1) = true) ∧
    ∃ msg, splitTransaction c2Vars c2Sheet 1 = .error msg :=
  ⟨⟨by decide, by decide⟩,
    split_rejects_mid_group c2Vars c2Sheet 1 (by decide) (by decide)⟩

end Budgeting

namespace JsModel

theorem natToCharsAux_eq_digits :
    ∀ (fuel n : Nat), n ≤ fuel →
      natToCharsAux n fuel = ((Nat.digits 10 n).reverse).map digitChar := by
  intro fuel
  induction fuel with
  | zero =>
    intro n hn
    interval_cases n
    simp [natToCharsAux]
  | succ f ih =>
    intro n hn
    cases n with
    | zero => simp [natToCharsAux]
    | succ m =>
      have hdiv : (m + 1) / 10 ≤ f := by omega
      rw [show natToCharsAux (m + 1) (f + 1) =
          natToCharsAux ((m + 1) / 10) f ++ [digitChar ((m + 1) % 10)]
          from rfl,
        ih ((m + 1) / 10) hdiv,
        Nat.digits_def' (by norm_num : (1:ℕ) < 10) (by omega : 0 < m + 1)]
      simp

theorem natToChars_eq_digits (n : Nat) :
    natToChars n =
      if n = 0 then ['0'] else ((Nat.digits 10 n).reverse).map digitChar := by
  unfold natToChars
  by_cases h : n = 0
  · simp [h]
  · rw [if_neg h, if_neg h, natToCharsAux_eq_digits n n le_rfl]

theorem digitChar_toNat (d : Nat) (h : d < 10) :
    (digitChar d).toNat - 48 = d := by
  interval_cases d <;> decide

theorem isDigitChar_digitChar (d : Nat) (h : d < 10) :
    isDigitChar (digitChar d) = true := by
  interval_cases d <;> decide

theorem foldl_digitChar (ds : List Nat) (hds : ∀ d ∈ ds, d < 10) :
    ∀ acc : Nat,
      List.foldl (fun a c => a * 10 + (c.toNat - 48)) acc (ds.map digitChar) =
      List.foldl (fun a d => a * 10 + d) acc ds := by
  induction ds with
  | nil => intro acc; rfl
  | cons d t ih =>
    intro acc
    simp only [List.map_cons, List.foldl_cons]
    rw [digitChar_toNat d (hds d (by simp))]
    exact ih (fun x hx => hds x (by simp [hx])) _

theorem foldl_rev_ofDigits (ds : List Nat) :
    ∀ acc : Nat,
      List.foldl (fun a d => a * 10 + d) acc ds.reverse =
      acc * 10 ^ ds.length + Nat.ofDigits 10 ds := by
  induction ds with
  | nil => intro acc; simp [Nat.ofDigits]
  | cons d t ih =>
    intro acc
    simp only [List.reverse_cons, List.foldl_append, List.foldl_cons,
      List.foldl_nil, ih, List.length_cons, Nat.ofDigits_cons]
    ring

theorem charsToNat_natToChars (n : Nat) :
    charsToNat (natToChars n) = n := by
  rw [natToChars_eq_digits]
  by_cases h : n = 0
  · subst h; decide
  · rw [if_neg h]
    unfold charsToNat
    rw [foldl_digitChar ((Nat.digits 10 n).reverse)
        (fun d hd => Nat.digits_lt_base (by norm_num)
          (List.mem_reverse.mp hd)) 0,
      foldl_rev_ofDigits (Nat.digits 10 n) 0, Nat.ofDigits_digits]
    ring

theorem natToChars_ne_nil (n : Nat) : natToChars n ≠ [] := by
  rw [natToChars_eq_digits]
  by_cases h : n = 0
  · simp [h]
  · rw [if_neg h]
    simp [Nat.digits_ne_nil_iff_ne_zero.mpr h]

theorem natToChars_digits (n : Nat) :
    ∀ c ∈ natToChars n, isDigitChar c = true := by
  by_cases h : n = 0
  · subst h
    intro c hc
    rw [natToChars_eq_digits] at hc
    simp at hc
    subst hc
    decide
  · intro c hc
    rw [natToChars_eq_digits] at hc
    rw [if_neg h] at hc
    obtain ⟨d, hd, rfl⟩ := List.mem_map.mp hc
    exact isDigitChar_digitChar d (Nat.digits_lt_base (by norm_num)
      (List.mem_reverse.mp hd))

theorem natToChars_single (d : Nat) (h0 : 0 < d) (h9 : d < 10) :
    natToChars d = [digitChar d] := by
  rw [natToChars_eq_digits]
  rw [if_neg (by omega), Nat.digits_def' (by norm_num : (1:ℕ) < 10) h0,
    Nat.mod_eq_of_lt h9, Nat.div_eq_of_lt h9]
  simp

theorem natToChars_two (n : Nat) (h10 : 10 ≤ n) (h100 : n < 100) :
    natToChars n = [digitChar (n / 10), digitChar (n % 10)] := by
  rw [natToChars_eq_digits]
  rw [if_neg (by omega), Nat.digits_def' (by norm_num : (1:ℕ) < 10)
      (by omega : 0 < n),
    Nat.digits_def' (by norm_num : (1:ℕ) < 10) (by omega : 0 < n / 10),
    Nat.div_eq_of_lt (by omega : n / 10 < 10),
    Nat.mod_eq_of_lt (by omega : n / 10 < 10)]
  simp

theorem charsToNat_cons_zero (l : List Char) :
    charsToNat ('0' :: l) = charsToNat l := rfl

end JsModel

namespace JsModel

theorem takeWhile_append_all {α : Type} {p : α → Bool} {l₁ : List α}
    (l₂ : List α) (h : ∀ c ∈ l₁, p c = true) :
    (l₁ ++ l₂).takeWhile p = l₁ ++ l₂.takeWhile p := by
  induction l₁ with
  | nil => simp
  | cons c t ih =>
    simp only [List.cons_append, List.takeWhile_cons, h c (by simp),
      if_true, List.cons.injEq, true_and]
    exact ih (fun x hx => h x (by simp [hx]))

theorem dropWhile_append_all {α : Type} {p : α → Bool} {l₁ : List α}
    (l₂ : List α) (h : ∀ c ∈ l₁, p c = true) :
    (l₁ ++ l₂).dropWhile p = l₂.dropWhile p := by
  induction l₁ with
  | nil => simp
  | cons c t ih =>
    simp only [List.cons_append, List.dropWhile_cons, h c (by simp), if_true]
    exact ih (fun x hx => h x (by simp [hx]))

theorem takeWhile_cons_neg {α : Type} {p : α → Bool} {c : α} {l : List α}
    (h : p c = false) : (c :: l).takeWhile p = [] := by
  simp [List.takeWhile_cons, h]

theorem dropWhile_cons_neg {α : Type} {p : α → Bool} {c : α} {l : List α}
    (h : p c = false) : (c :: l).dropWhile p = c :: l := by
  simp [List.dropWhile_cons, h]

theorem pFac_pow_dvd (p : Nat) (hp : 2 ≤ p) :
    ∀ fuel n, n ≤ fuel → p ^ pFac p fuel n ∣ n := by
  intro fuel
  induction fuel with
  | zero => intro n hn; simp [pFac]
  | succ f ih =>
    intro n hn
    by_cases hc : 2 ≤ p ∧ 0 < n ∧ n % p = 0
    · rw [show pFac p (f + 1) n = pFac p f (n / p) + 1 by
        rw [pFac, if_pos hc]]
      obtain ⟨-, hn0, hmod⟩ := hc
      have hdvd : p ∣ n := Nat.dvd_of_mod_eq_zero hmod
      have hlt : n / p < n := Nat.div_lt_self hn0 (by omega)
      have := ih (n / p) (by omega)
      calc p ^ (pFac p f (n / p) + 1) = p * p ^ pFac p f (n / p) := by ring
        _ ∣ p * (n / p) := Nat.mul_dvd_mul_left p this
        _ = n := Nat.mul_div_cancel' hdvd
    · rw [show pFac p (f + 1) n = 0 by rw [pFac, if_neg hc]]
      simp

theorem pFac_succ_not_dvd (p : Nat) (hp : 2 ≤ p) :
    ∀ fuel n, 0 < n → n ≤ fuel → ¬ p ^ (pFac p fuel n + 1) ∣ n := by
  intro fuel
  induction fuel with
  | zero => intro n hn0 hn; omega
  | succ f ih =>
    intro n hn0 hn
    by_cases hc : 2 ≤ p ∧ 0 < n ∧ n % p = 0
    · rw [show pFac p (f + 1) n = pFac p f (n / p) + 1 by
        rw [pFac, if_pos hc]]
      obtain ⟨-, -, hmod⟩ := hc
      have hdvd : p ∣ n := Nat.dvd_of_mod_eq_zero hmod
      have hlt : n / p < n := Nat.div_lt_self hn0 (by omega)
      have hq0 : 0 < n / p := Nat.div_pos (Nat.le_of_dvd hn0 hdvd) (by omega)
      intro hbig
      apply ih (n / p) hq0 (by omega)
      have hn' : n = p * (n / p) := (Nat.mul_div_cancel' hdvd).symm
      have hstep : p * p ^ (pFac p f (n / p) + 1) ∣ p * (n / p) := by
        rw [show p * p ^ (pFac p f (n / p) + 1) =
          p ^ (pFac p f (n / p) + 1 + 1) from by ring, ← hn']
        exact hbig
      exact (Nat.mul_dvd_mul_iff_left (by omega : 0 < p)).mp hstep
    · rw [show pFac p (f + 1) n = 0 by rw [pFac, if_neg hc]]
      rw [pow_one]
      intro hdvd
      exact hc ⟨hp, hn0, Nat.dvd_iff_mod_eq_zero.mp hdvd⟩

theorem den_dvd_pow_of_den_one (q : ℚ) (k : Nat)
    (h : (q * 10 ^ k).den = 1) : q.den ∣ 10 ^ k := by
  have hq1 : ((q * 10 ^ k).num : ℚ) = q * 10 ^ k := (Rat.den_eq_one_iff _).mp h
  have hq2 : q = ((q * 10 ^ k).num : ℚ) / ((10 ^ k : ℤ) : ℚ) := by
    rw [hq1]
    push_cast
    have h10 : ((10:ℚ)) ^ k ≠ 0 := by positivity
    field_simp
  have hd := Rat.den_dvd (q * 10 ^ k).num (10 ^ k)
  rw [Rat.divInt_eq_div, ← hq2] at hd
  have hd' : (q.den : ℤ) ∣ ((10 ^ k : ℕ) : ℤ) := by
    push_cast
    exact_mod_cast hd
  exact_mod_cast hd'

theorem den_dvd_ten_pow_decExp (q : ℚ) (h : ∃ k, (q * 10 ^ k).den = 1) :
    q.den ∣ 10 ^ decExp q := by
  obtain ⟨k, hk⟩ := h
  have hdvd : q.den ∣ 10 ^ k := den_dvd_pow_of_den_one q k hk
  have hgoal : ∀ d : Nat, 0 < d → d ∣ 10 ^ k →
      ∀ a b : Nat, 2 ^ a ∣ d → 5 ^ b ∣ d →
      ¬ 2 ^ (a + 1) ∣ d → ¬ 5 ^ (b + 1) ∣ d → d ∣ 10 ^ max a b := by
    intro d hd0 hddvd a b ha hb ha' hb'
    have hcop : Nat.Coprime (2 ^ a) (5 ^ b) :=
      Nat.Coprime.pow _ _ (by decide)
    obtain ⟨e, he⟩ := hcop.mul_dvd_of_dvd_of_dvd ha hb
    have he2 : ¬ 2 ∣ e := by
      intro hdv
      obtain ⟨w, hw⟩ := hdv
      exact ha' ⟨5 ^ b * w, by rw [he, hw]; ring⟩
    have he5 : ¬ 5 ∣ e := by
      intro hdv
      obtain ⟨w, hw⟩ := hdv
      exact hb' ⟨2 ^ a * w, by rw [he, hw]; ring⟩
    have heDvd : e ∣ 10 ^ k :=
      dvd_trans ⟨2 ^ a * 5 ^ b, by rw [he]; ring⟩ hddvd
    have h10 : (10 : ℕ) ^ k = 5 ^ k * 2 ^ k := by
      rw [← Nat.mul_pow]
    have hc2 : Nat.Coprime e 2 :=
      ((Nat.Prime.coprime_iff_not_dvd Nat.prime_two).mpr he2).symm
    have hc5 : Nat.Coprime e 5 :=
      ((Nat.Prime.coprime_iff_not_dvd Nat.prime_five).mpr he5).symm
    have he53 : e ∣ 5 ^ k :=
      Nat.Coprime.dvd_of_dvd_mul_right (hc2.pow_right k)
        (by rw [← h10]; exact heDvd)
    have he1 : e ∣ 1 :=
      Nat.Coprime.dvd_of_dvd_mul_right (hc5.pow_right k)
        (by rw [one_mul]; exact he53)
    have he1' : e = 1 := Nat.dvd_one.mp he1
    rw [he1', mul_one] at he
    rw [he, show (10 : ℕ) ^ max a b = 2 ^ max a b * 5 ^ max a b from by
      rw [← Nat.mul_pow]]
    exact Nat.mul_dvd_mul (pow_dvd_pow 2 (le_max_left _ _))
      (pow_dvd_pow 5 (le_max_right _ _))
  exact hgoal q.den q.pos hdvd (pFac 2 q.den q.den) (pFac 5 q.den q.den)
    (pFac_pow_dvd 2 (by norm_num) q.den q.den le_rfl)
    (pFac_pow_dvd 5 (by norm_num) q.den q.den le_rfl)
    (pFac_succ_not_dvd 2 (by norm_num) q.den q.den q.pos le_rfl)
    (pFac_succ_not_dvd 5 (by norm_num) q.den q.den q.pos le_rfl)

theorem den_one_decExp (q : ℚ) (h : ∃ k, (q * 10 ^ k).den = 1) :
    (q * 10 ^ decExp q).den = 1 := by
  have hgen : ∀ K : Nat, q.den ∣ 10 ^ K → (q * 10 ^ K).den = 1 := by
    intro K hdvdK
    have hmul : ((10 ^ K / q.den : ℕ) : ℚ) * (q.den : ℚ) = (10 : ℚ) ^ K := by
      exact_mod_cast congrArg (Nat.cast : ℕ → ℚ) (Nat.div_mul_cancel hdvdK)
    have hnum : q * (q.den : ℚ) = (q.num : ℚ) := Rat.mul_den_eq_num q
    have hval : q * 10 ^ K =
        (((q.num * (10 ^ K / q.den : ℕ) : ℤ)) : ℚ) := by
      have hcast : (((q.num * (10 ^ K / q.den : ℕ) : ℤ)) : ℚ) =
          (q.num : ℚ) * ((10 ^ K / q.den : ℕ) : ℚ) := by
        rw [Int.cast_mul, Int.cast_natCast]
      rw [hcast, ← hmul]
      calc q * (((10 ^ K / q.den : ℕ) : ℚ) * (q.den : ℚ))
          = q * (q.den : ℚ) * ((10 ^ K / q.den : ℕ) : ℚ) := by ring
        _ = (q.num : ℚ) * ((10 ^ K / q.den : ℕ) : ℚ) := by rw [hnum]
    rw [hval, Rat.den_intCast]
  exact hgen (decExp q) (den_dvd_ten_pow_decExp q h)

theorem natToChars_length_le (n k : Nat) (h : n < 10 ^ k) (hk : 0 < k) :
    (natToChars n).length ≤ k := by
  rw [natToChars_eq_digits]
  by_cases h0 : n = 0
  · simp [h0]
    omega
  · rw [if_neg h0]
    simp only [List.length_map, List.length_reverse]
    rw [Nat.digits_len 10 n (by norm_num) h0]
    have := Nat.log_lt_of_lt_pow h0 h
    omega

theorem charsToNat_replicate_zeros (m : Nat) (l : List Char) :
    charsToNat (List.replicate m '0' ++ l) = charsToNat l := by
  induction m with
  | zero => simp
  | succ j ih =>
    rw [List.replicate_succ, List.cons_append, charsToNat_cons_zero, ih]

theorem ratToChars_shape (C : ℚ) (hC : 0 ≤ C)
    (hden : ∃ k, (C * 10 ^ k).den = 1) :
    ∃ ds fs : List Char, ratToChars C = ds ++ fs ∧ ds ≠ [] ∧
      (∀ c ∈ ds, isDigitChar c = true) ∧
      ((fs = [] ∧ (charsToNat ds : ℚ) = C) ∨
       (∃ fds : List Char, fs = Char.ofNat 46 :: fds ∧ fds ≠ [] ∧
         (∀ c ∈ fds, isDigitChar c = true) ∧
         (charsToNat ds : ℚ) +
           (charsToNat fds : ℚ) / (10 : ℚ) ^ fds.length = C)) := by
  have hK : (C * 10 ^ decExp C).den = 1 := den_one_decExp C hden
  have hm0 : 0 ≤ (C * 10 ^ decExp C).num := Rat.num_nonneg.mpr (by positivity)
  have hq : ((C * 10 ^ decExp C).num : ℚ) = C * 10 ^ decExp C :=
    (Rat.den_eq_one_iff _).mp hK
  simp only [ratToChars]
  rw [if_pos hK]
  simp only [if_neg (not_lt.mpr hm0), List.nil_append]
  set K : Nat := decExp C with hKdef
  set n : Nat := (C * 10 ^ K).num.natAbs with hn
  have hnC : (n : ℚ) = C * 10 ^ K := by
    rw [← hq, hn, Int.cast_natAbs, abs_of_nonneg hm0]
  have hp0 : 0 < 10 ^ K := pow_pos (by norm_num) K
  have hkey : ((n / 10 ^ K : ℕ) : ℚ) + ((n % 10 ^ K : ℕ) : ℚ) / 10 ^ K = C := by
    have h1 : ((n : ℕ) : ℚ) =
        10 ^ K * ((n / 10 ^ K : ℕ) : ℚ) + ((n % 10 ^ K : ℕ) : ℚ) := by
      exact_mod_cast congrArg (Nat.cast : ℕ → ℚ)
        (Nat.div_add_mod n (10 ^ K)).symm
    have hq10 : ((10:ℚ)) ^ K ≠ 0 := by positivity
    field_simp
    linarith [hnC, h1]
  by_cases hk0 : K = 0
  · rw [if_pos hk0]
    refine ⟨natToChars (n / 10 ^ K), [], by simp, natToChars_ne_nil _,
      natToChars_digits _, Or.inl ⟨rfl, ?_⟩⟩
    rw [charsToNat_natToChars, hk0]
    have := hkey
    rw [hk0] at this
    simp only [pow_zero, Nat.div_one, Nat.mod_one] at this ⊢
    simpa using this
  · rw [if_neg hk0]
    refine ⟨natToChars (n / 10 ^ K),
      Char.ofNat 46 ::
        (List.replicate (K - (natToChars (n % 10 ^ K)).length) '0' ++
          natToChars (n % 10 ^ K)),
      rfl, natToChars_ne_nil _, natToChars_digits _,
      Or.inr ⟨List.replicate (K - (natToChars (n % 10 ^ K)).length) '0' ++
        natToChars (n % 10 ^ K), rfl, ?_, ?_, ?_⟩⟩
    · intro hnil
      exact natToChars_ne_nil _ (List.append_eq_nil.mp hnil).2
    · intro c hc
      rcases List.mem_append.mp hc with hrep | hnc
      · rw [List.eq_of_mem_replicate hrep]
        decide
      · exact natToChars_digits _ c hnc
    · have hlen : (natToChars (n % 10 ^ K)).length ≤ K :=
        natToChars_length_le _ _ (Nat.mod_lt _ hp0) (Nat.pos_of_ne_zero hk0)
      rw [charsToNat_replicate_zeros, charsToNat_natToChars (n / 10 ^ K),
        charsToNat_natToChars (n % 10 ^ K),
        show (List.replicate (K - (natToChars (n % 10 ^ K)).length) '0' ++
            natToChars (n % 10 ^ K)).length = K by
          simp only [List.length_append, List.length_replicate]
          omega]
      exact hkey

theorem ratToChars_neg (q : ℚ) (hq : q < 0) :
    ratToChars q = '-' :: ratToChars (-q) := by
  have hde : decExp (-q) = decExp q := rfl
  have hd : ((-q) * 10 ^ decExp q).den = (q * 10 ^ decExp q).den := by
    rw [neg_mul]
    rfl
  have hn : ((-q) * 10 ^ decExp q).num = -((q * 10 ^ decExp q).num) := by
    rw [neg_mul]
    rfl
  simp only [ratToChars, hde, hd, hn]
  by_cases hcond : (q * 10 ^ decExp q).den = 1
  · rw [if_pos hcond, if_pos hcond]
    have hm : (q * 10 ^ decExp q).num < 0 :=
      Rat.num_neg.mpr (mul_neg_of_neg_of_pos hq (by positivity))
    rw [if_pos hm, if_neg (by omega : ¬ -(q * 10 ^ decExp q).num < 0),
      Int.natAbs_neg]
    by_cases hk : decExp q = 0
    · rw [if_pos hk, if_pos hk]
      simp
    · rw [if_neg hk, if_neg hk]
      simp
  · rw [if_neg hcond, if_neg hcond]
    have hqnum : q.num < 0 := Rat.num_neg.mpr hq
    have hnn : (-q).num = -q.num := rfl
    have hdd : (-q).den = q.den := rfl
    rw [hnn, hdd]
    unfold intToChars
    rw [if_pos hqnum, if_neg (by omega : ¬ -q.num < 0), Int.natAbs_neg]
    simp

end JsModel

namespace Formula

open JsModel

theorem digit_ne_syms {c : Char} (h : isDigitChar c = true) :
    c ≠ '-' ∧ c ≠ '(' ∧ c ≠ 'R' ∧ c ≠ '.' ∧ c ≠ '*' ∧ c ≠ '+' ∧ c ≠ ')' := by
  refine ⟨?_, ?_, ?_, ?_, ?_, ?_, ?_⟩ <;> rintro rfl <;>
    exact absurd h (by decide)

theorem parseF_exprTail_stop (ρ : Int → ℚ) (f : Nat) (a : ℚ) (cs : List Char)
    (h : ∀ t, cs ≠ '-' :: t) (h2 : ∀ t, cs ≠ '+' :: t) :
    parseF ρ (f + 1) (.exprTail a) cs = some (a, cs) := by
  simp only [parseF]

theorem parseF_mulTail_stop (ρ : Int → ℚ) (f : Nat) (a : ℚ) (cs : List Char)
    (h : ∀ t, cs ≠ '*' :: t) :
    parseF ρ (f + 1) (.mulTail a) cs = some (a, cs) := by
  simp only [parseF]

end Formula

namespace Formula

open JsModel

theorem parseF_atom_num (ρ : Int → ℚ) (f : Nat) (C : ℚ) (hC : 0 ≤ C)
    (hden : ∃ k, (C * 10 ^ k).den = 1) (sfx : List Char)
    (hd : ∀ c t, sfx = c :: t → isDigitChar c = false ∧ c ≠ '.') :
    parseF ρ (f + 1) .atom (ratToChars C ++ sfx) = some (C, sfx) := by
  obtain ⟨ds, fs, hsplit, hne, hdig, hval⟩ := ratToChars_shape C hC hden
  rw [hsplit, List.append_assoc]
  obtain ⟨c0, ds', rfl⟩ : ∃ c0 ds', ds = c0 :: ds' := by
    cases ds with
    | nil => exact absurd rfl hne
    | cons a b => exact ⟨a, b, rfl⟩
  have hc0 : isDigitChar c0 = true := hdig c0 (by simp)
  obtain ⟨hm, hp, hR, hdot, -, -, -⟩ := digit_ne_syms hc0
  have h1 : ∀ t, (c0 :: (ds' ++ (fs ++ sfx))) ≠ '-' :: t := by
    intro t hEq
    injection hEq with e1 e2
    exact hm e1
  have h2 : ∀ t, (c0 :: (ds' ++ (fs ++ sfx))) ≠ '(' :: t := by
    intro t hEq
    injection hEq with e1 e2
    exact hp e1
  have h3 : ∀ t, (c0 :: (ds' ++ (fs ++ sfx))) ≠ 'R' :: '[' :: t := by
    intro t hEq
    injection hEq with e1 e2
    exact hR e1
  have htake0 : List.takeWhile isDigitChar (fs ++ sfx) = [] ∨
      (∃ fds, fs = '.' :: fds) := by
    rcases hval with ⟨rfl, -⟩ | ⟨fds, rfl, -⟩
    · left
      cases hsfx : sfx with
      | nil => rfl
      | cons c t => exact takeWhile_cons_neg (hd c t hsfx).1
    · right
      exact ⟨fds, rfl⟩
  simp only [List.cons_append] at h1 h2 h3 ⊢
  simp only [parseF]
  have hdsfx : List.dropWhile isDigitChar sfx = sfx := by
    cases hsfx : sfx with
    | nil => rfl
    | cons c t => exact dropWhile_cons_neg (hd c t hsfx).1
  have htsfx : List.takeWhile isDigitChar sfx = [] := by
    cases hsfx : sfx with
    | nil => rfl
    | cons c t => exact takeWhile_cons_neg (hd c t hsfx).1
  have h4 : ∀ t, sfx ≠ '.' :: t := by
    intro t hEq
    exact (hd _ _ hEq).2 rfl
  rcases hval with ⟨rfl, hCval⟩ | ⟨fds, rfl, hfne, hfdig, hCval⟩
  · simp only [List.nil_append] at h1 h2 h3 ⊢
    have htw : List.takeWhile isDigitChar (c0 :: (ds' ++ sfx)) =
        (c0 :: ds') ++ List.takeWhile isDigitChar sfx := by
      have := takeWhile_append_all sfx hdig
      simpa using this
    have hdw : List.dropWhile isDigitChar (c0 :: (ds' ++ sfx)) =
        List.dropWhile isDigitChar sfx := by
      have := dropWhile_append_all sfx hdig
      simpa using this
    rw [htw, htsfx, hdw, hdsfx, List.append_nil]
    simp only [List.isEmpty_cons, Bool.false_eq_true, if_false]
    rw [hCval]
  · have hdotc : (Char.ofNat 46 : Char) = '.' := rfl
    rw [hdotc]
    have htw : List.takeWhile isDigitChar
        (c0 :: (ds' ++ (('.' :: fds) ++ sfx))) =
        (c0 :: ds') ++ List.takeWhile isDigitChar (('.' :: fds) ++ sfx) := by
      have := takeWhile_append_all (('.' :: fds) ++ sfx) hdig
      simpa using this
    have hdw : List.dropWhile isDigitChar
        (c0 :: (ds' ++ (('.' :: fds) ++ sfx))) =
        List.dropWhile isDigitChar (('.' :: fds) ++ sfx) := by
      have := dropWhile_append_all (('.' :: fds) ++ sfx) hdig
      simpa using this
    have htdot : List.takeWhile isDigitChar (('.' :: fds) ++ sfx) = [] :=
      takeWhile_cons_neg (by decide)
    have hddot : List.dropWhile isDigitChar (('.' :: fds) ++ sfx) =
        '.' :: (fds ++ sfx) := by
      rw [show ('.' :: fds) ++ sfx = '.' :: (fds ++ sfx) from rfl]
      exact dropWhile_cons_neg (by decide)
    rw [htw, htdot, hdw, hddot, List.append_nil]
    simp only [List.isEmpty_cons, Bool.false_eq_true, if_false]
    have htfds : List.takeWhile isDigitChar (fds ++ sfx) =
        fds ++ List.takeWhile isDigitChar sfx :=
      takeWhile_append_all sfx hfdig
    have hdfds : List.dropWhile isDigitChar (fds ++ sfx) =
        List.dropWhile isDigitChar sfx :=
      dropWhile_append_all sfx hfdig
    rw [htfds, htsfx, List.append_nil, hdfds, hdsfx, hCval]

end Formula

namespace Formula

open JsModel

theorem parseF_atom_ref (ρ : Int → ℚ) (f g : Nat) (sfx : List Char) :
    parseF ρ (f + 1) .atom
      ('R' :: '[' :: (natToChars g ++
        (']' :: 'C' :: '[' :: '0' :: ']' :: sfx))) = some (ρ g, sfx) := by
  obtain ⟨c0, t0, heq⟩ : ∃ c0 t0, natToChars g = c0 :: t0 := by
    cases hh : natToChars g with
    | nil => exact absurd hh (natToChars_ne_nil g)
    | cons a b => exact ⟨a, b, rfl⟩
  have hdig : ∀ c ∈ c0 :: t0, isDigitChar c = true := by
    rw [← heq]
    exact natToChars_digits g
  have hc0 : isDigitChar c0 = true := hdig c0 (by simp)
  obtain ⟨hm, -, -, -, -, -, -⟩ := digit_ne_syms hc0
  rw [heq, List.cons_append]
  have h1 : ∀ ts, (c0 :: (t0 ++
      (']' :: 'C' :: '[' :: '0' :: ']' :: sfx))) ≠ '-' :: ts := by
    intro ts hEq
    injection hEq with e1 e2
    exact hm e1
  simp only [parseF]
  have htw : List.takeWhile isDigitChar (c0 :: (t0 ++
      (']' :: 'C' :: '[' :: '0' :: ']' :: sfx))) =
      (c0 :: t0) ++ List.takeWhile isDigitChar
        ((']' :: 'C' :: '[' :: '0' :: ']' :: sfx) : List Char) := by
    have := takeWhile_append_all
      ((']' :: 'C' :: '[' :: '0' :: ']' :: sfx : List Char)) hdig
    simpa using this
  have hdw : List.dropWhile isDigitChar (c0 :: (t0 ++
      (']' :: 'C' :: '[' :: '0' :: ']' :: sfx))) =
      List.dropWhile isDigitChar
        ((']' :: 'C' :: '[' :: '0' :: ']' :: sfx) : List Char) := by
    have := dropWhile_append_all
      ((']' :: 'C' :: '[' :: '0' :: ']' :: sfx : List Char)) hdig
    simpa using this
  have htc : List.takeWhile isDigitChar
      ((']' :: 'C' :: '[' :: '0' :: ']' :: sfx) : List Char) = [] :=
    takeWhile_cons_neg (by decide)
  have hdc : List.dropWhile isDigitChar
      ((']' :: 'C' :: '[' :: '0' :: ']' :: sfx) : List Char) =
      ']' :: 'C' :: '[' :: '0' :: ']' :: sfx :=
    dropWhile_cons_neg (by decide)
  rw [htw, htc, hdw, hdc, List.append_nil]
  simp only [List.isEmpty_cons, Bool.false_eq_true, if_false]
  rw [← heq, charsToNat_natToChars]

end Formula

namespace Formula

open JsModel

theorem parseF_atom_numS (ρ : Int → ℚ) (f : Nat) (C : ℚ)
    (hden : ∃ k, (C * 10 ^ k).den = 1) (sfx : List Char)
    (hd : ∀ c t, sfx = c :: t → isDigitChar c = false ∧ c ≠ '.') :
    parseF ρ (f + 2) .atom (ratToChars C ++ sfx) = some (C, sfx) := by
  by_cases hC : 0 ≤ C
  · exact parseF_atom_num ρ (f + 1) C hC hden sfx hd
  · push_neg at hC
    have hdenN : ∃ k, ((-C) * 10 ^ k).den = 1 := by
      obtain ⟨k, hk⟩ := hden
      refine ⟨k, ?_⟩
      rw [neg_mul]
      exact hk
    rw [ratToChars_neg C hC, List.cons_append]
    have step : parseF ρ (f + 2) .atom ('-' :: (ratToChars (-C) ++ sfx)) =
        (parseF ρ (f + 1) .atom (ratToChars (-C) ++ sfx)).map
          (fun v => (-v.1, v.2)) := rfl
    rw [step, parseF_atom_num ρ f (-C) (by linarith) hdenN sfx hd]
    simp

theorem parseF_mul_num (ρ : Int → ℚ) (f : Nat) (C : ℚ)
    (hden : ∃ k, (C * 10 ^ k).den = 1) (sfx : List Char)
    (hd : ∀ c t, sfx = c :: t →
      isDigitChar c = false ∧ c ≠ '.' ∧ c ≠ '*') :
    parseF ρ (f + 3) .mul (ratToChars C ++ sfx) = some (C, sfx) := by
  have step : parseF ρ (f + 3) .mul (ratToChars C ++ sfx) =
      (match parseF ρ (f + 2) .atom (ratToChars C ++ sfx) with
       | none => none
       | some (v, rest) => parseF ρ (f + 2) (.mulTail v) rest) := rfl
  rw [step, parseF_atom_numS ρ f C hden sfx
    (fun c t h => ⟨(hd c t h).1, (hd c t h).2.1⟩)]
  exact parseF_mulTail_stop ρ (f + 1) C sfx
    (fun t hEq => (hd _ _ hEq).2.2 rfl)

theorem parseF_mul_ref (ρ : Int → ℚ) (f g : Nat) :
    parseF ρ (f + 2) .mul
      ('R' :: '[' :: (natToChars g ++ (']' :: 'C' :: '[' :: '0' :: ']' :: []))) =
      some (ρ g, []) := by
  have step : parseF ρ (f + 2) .mul
      ('R' :: '[' :: (natToChars g ++
        (']' :: 'C' :: '[' :: '0' :: ']' :: []))) =
      (match parseF ρ (f + 1) .atom
          ('R' :: '[' :: (natToChars g ++
            (']' :: 'C' :: '[' :: '0' :: ']' :: []))) with
       | none => none
       | some (v, rest) => parseF ρ (f + 1) (.mulTail v) rest) := rfl
  rw [step, parseF_atom_ref ρ f g []]
  exact parseF_mulTail_stop ρ f (ρ g) [] (fun t hEq => List.noConfusion hEq)

theorem parseF_expr_diff (ρ : Int → ℚ) (f : Nat) (C : ℚ)
    (hden : ∃ k, (C * 10 ^ k).den = 1) (g : Nat) :
    parseF ρ (f + 4) .expr
      (ratToChars C ++ ('-' :: 'R' :: '[' :: (natToChars g ++
        (']' :: 'C' :: '[' :: '0' :: ']' :: [])))) = some (C - ρ g, []) := by
  have hmul : parseF ρ (f + 3) .mul
      (ratToChars C ++ ('-' :: 'R' :: '[' :: (natToChars g ++
        (']' :: 'C' :: '[' :: '0' :: ']' :: [])))) =
      some (C, '-' :: 'R' :: '[' :: (natToChars g ++
        (']' :: 'C' :: '[' :: '0' :: ']' :: []))) :=
    parseF_mul_num ρ f C hden _
      (by intro c t h; injection h with e1 e2; subst e1;
          exact ⟨by decide, by decide, by decide⟩)
  have step : parseF ρ (f + 4) .expr
      (ratToChars C ++ ('-' :: 'R' :: '[' :: (natToChars g ++
        (']' :: 'C' :: '[' :: '0' :: ']' :: [])))) =
      (match parseF ρ (f + 3) .mul
          (ratToChars C ++ ('-' :: 'R' :: '[' :: (natToChars g ++
            (']' :: 'C' :: '[' :: '0' :: ']' :: [])))) with
       | none => none
       | some (v, rest) => parseF ρ (f + 3) (.exprTail v) rest) := rfl
  rw [step, hmul]
  show parseF ρ (f + 3) (.exprTail C)
      ('-' :: 'R' :: '[' :: (natToChars g ++
        (']' :: 'C' :: '[' :: '0' :: ']' :: []))) = some (C - ρ g, [])
  have step2 : parseF ρ (f + 3) (.exprTail C)
      ('-' :: 'R' :: '[' :: (natToChars g ++
        (']' :: 'C' :: '[' :: '0' :: ']' :: []))) =
      (match parseF ρ (f + 2) .mul
          ('R' :: '[' :: (natToChars g ++
            (']' :: 'C' :: '[' :: '0' :: ']' :: []))) with
       | some (v, rest) => parseF ρ (f + 2) (.exprTail (C - v)) rest
       | none => none) := rfl
  rw [step2, parseF_mul_ref ρ f g]
  exact parseF_exprTail_stop ρ (f + 1) (C - ρ g) []
    (fun t hEq => List.noConfusion hEq) (fun t hEq => List.noConfusion hEq)

end Formula

namespace Formula

open JsModel

theorem parseF_atom_zero (ρ : Int → ℚ) (f : Nat) :
    parseF ρ (f + 1) .atom ('0' :: ')' :: []) = some (0, [')']) := by
  simp [parseF, List.takeWhile, List.dropWhile, isDigitChar, charsToNat]

theorem parseF_mul_zero (ρ : Int → ℚ) (f : Nat) :
    parseF ρ (f + 2) .mul ('0' :: ')' :: []) = some (0, [')']) := by
  have step : parseF ρ (f + 2) .mul ('0' :: ')' :: []) =
      (match parseF ρ (f + 1) .atom ('0' :: ')' :: []) with
       | none => none
       | some (v, rest) => parseF ρ (f + 1) (.mulTail v) rest) := rfl
  rw [step, parseF_atom_zero ρ f]
  exact parseF_mulTail_stop ρ f 0 [')']
    (by intro t hEq; injection hEq with e1 e2; exact absurd e1 (by decide))

theorem parseF_expr_zero (ρ : Int → ℚ) (f : Nat) :
    parseF ρ (f + 3) .expr ('0' :: ')' :: []) = some (0, [')']) := by
  have step : parseF ρ (f + 3) .expr ('0' :: ')' :: []) =
      (match parseF ρ (f + 2) .mul ('0' :: ')' :: []) with
       | none => none
       | some (v, rest) => parseF ρ (f + 2) (.exprTail v) rest) := rfl
  rw [step, parseF_mul_zero ρ f]
  exact parseF_exprTail_stop ρ (f + 1) 0 [')']
    (by intro t hEq; injection hEq with e1 e2; exact absurd e1 (by decide))
    (by intro t hEq; injection hEq with e1 e2; exact absurd e1 (by decide))

theorem parseF_atom_paren (ρ : Int → ℚ) (f : Nat) :
    parseF ρ (f + 4) .atom ('(' :: '0' :: ')' :: []) = some (0, []) := by
  have step : parseF ρ (f + 4) .atom ('(' :: '0' :: ')' :: []) =
      (match parseF ρ (f + 3) .expr ('0' :: ')' :: []) with
       | some (v, ')' :: rest) => some (v, rest)
       | _ => none) := rfl
  rw [step, parseF_expr_zero ρ f]
  rfl

theorem parseF_mulTail_tax (ρ : Int → ℚ) (f : Nat) (a : ℚ) :
    parseF ρ (f + 5) (.mulTail a) ('*' :: '(' :: '0' :: ')' :: []) =
      some (a * 0, []) := by
  have step : parseF ρ (f + 5) (.mulTail a) ('*' :: '(' :: '0' :: ')' :: []) =
      (match parseF ρ (f + 4) .atom ('(' :: '0' :: ')' :: []) with
       | some (v, rest) => parseF ρ (f + 4) (.mulTail (a * v)) rest
       | none => none) := rfl
  rw [step, parseF_atom_paren ρ f]
  exact parseF_mulTail_stop ρ (f + 3) (a * 0) []
    (fun t hEq => List.noConfusion hEq)

theorem parseF_mul_tax (ρ : Int → ℚ) (f : Nat) (TM : ℚ)
    (hden : ∃ k, (TM * 10 ^ k).den = 1) :
    parseF ρ (f + 6) .mul (ratToChars TM ++ ('*' :: '(' :: '0' :: ')' :: [])) =
      some (TM * 0, []) := by
  have hatom : parseF ρ (f + 5) .atom
      (ratToChars TM ++ ('*' :: '(' :: '0' :: ')' :: [])) =
      some (TM, '*' :: '(' :: '0' :: ')' :: []) :=
    parseF_atom_numS ρ (f + 3) TM hden _
      (by intro c t h
          injection h with e1 e2
          subst e1
          exact ⟨by decide, by decide⟩)
  have step : parseF ρ (f + 6) .mul
      (ratToChars TM ++ ('*' :: '(' :: '0' :: ')' :: [])) =
      (match parseF ρ (f + 5) .atom
          (ratToChars TM ++ ('*' :: '(' :: '0' :: ')' :: [])) with
       | none => none
       | some (v, rest) => parseF ρ (f + 5) (.mulTail v) rest) := rfl
  rw [step, hatom]
  exact parseF_mulTail_tax ρ f TM

theorem parseF_expr_tax (ρ : Int → ℚ) (f : Nat) (TM : ℚ)
    (hden : ∃ k, (TM * 10 ^ k).den = 1) :
    parseF ρ (f + 7) .expr
      (ratToChars TM ++ ('*' :: '(' :: '0' :: ')' :: [])) =
      some (TM * 0, []) := by
  have hmul : parseF ρ (f + 6) .mul
      (ratToChars TM ++ ('*' :: '(' :: '0' :: ')' :: [])) =
      some (TM * 0, []) := parseF_mul_tax ρ f TM hden
  have step : parseF ρ (f + 7) .expr
      (ratToChars TM ++ ('*' :: '(' :: '0' :: ')' :: [])) =
      (match parseF ρ (f + 6) .mul
          (ratToChars TM ++ ('*' :: '(' :: '0' :: ')' :: [])) with
       | none => none
       | some (v, rest) => parseF ρ (f + 6) (.exprTail v) rest) := rfl
  rw [step, hmul]
  exact parseF_exprTail_stop ρ (f + 5) (TM * 0) []
    (fun t hEq => List.noConfusion hEq) (fun t hEq => List.noConfusion hEq)

end Formula

namespace Formula

open JsModel

theorem evalFormula_diff (ρ : Int → ℚ) (C : ℚ)
    (hden : ∃ k, (C * 10 ^ k).den = 1) (g : Nat) :
    evalFormula (String.mk ('=' :: (ratToChars C ++ ('-' :: 'R' :: '[' ::
      (natToChars g ++ (']' :: 'C' :: '[' :: '0' :: ']' :: [])))))) ρ =
    some (C - ρ g) := by
  have step : evalFormula (String.mk ('=' :: (ratToChars C ++
      ('-' :: 'R' :: '[' :: (natToChars g ++
        (']' :: 'C' :: '[' :: '0' :: ']' :: [])))))) ρ =
      (match parseF ρ (3 * (ratToChars C ++ ('-' :: 'R' :: '[' ::
          (natToChars g ++ (']' :: 'C' :: '[' :: '0' :: ']' :: [])))).length
            + 3) .expr
          (ratToChars C ++ ('-' :: 'R' :: '[' ::
            (natToChars g ++ (']' :: 'C' :: '[' :: '0' :: ']' :: [])))) with
       | some (v, []) => some v
       | _ => none) := rfl
  obtain ⟨f, hf⟩ : ∃ f, 3 * (ratToChars C ++ ('-' :: 'R' :: '[' ::
      (natToChars g ++ (']' :: 'C' :: '[' :: '0' :: ']' :: [])))).length
        + 3 = f + 4 := by
    refine ⟨3 * (ratToChars C ++ ('-' :: 'R' :: '[' ::
      (natToChars g ++ (']' :: 'C' :: '[' :: '0' :: ']' :: [])))).length
        - 1, ?_⟩
    have h1 : 0 < (ratToChars C ++ ('-' :: 'R' :: '[' ::
        (natToChars g ++ (']' :: 'C' :: '[' :: '0' :: ']' :: [])))).length := by
      simp
    omega
  rw [step, hf, parseF_expr_diff ρ f C hden g]

theorem evalFormula_tax (ρ : Int → ℚ) (TM : ℚ)
    (hden : ∃ k, (TM * 10 ^ k).den = 1) :
    evalFormula (String.mk ('=' :: (ratToChars TM ++
      ('*' :: '(' :: '0' :: ')' :: [])))) ρ = some (TM * 0) := by
  have step : evalFormula (String.mk ('=' :: (ratToChars TM ++
      ('*' :: '(' :: '0' :: ')' :: [])))) ρ =
      (match parseF ρ (3 * (ratToChars TM ++
          ('*' :: '(' :: '0' :: ')' :: [])).length + 3) .expr
          (ratToChars TM ++ ('*' :: '(' :: '0' :: ')' :: [])) with
       | some (v, []) => some v
       | _ => none) := rfl
  obtain ⟨f, hf⟩ : ∃ f, 3 * (ratToChars TM ++
      ('*' :: '(' :: '0' :: ')' :: [])).length + 3 = f + 7 := by
    refine ⟨3 * (ratToChars TM ++
      ('*' :: '(' :: '0' :: ')' :: [])).length - 4, ?_⟩
    have h1 : 4 ≤ (ratToChars TM ++
        ('*' :: '(' :: '0' :: ')' :: [])).length := by
      simp
    omega
  rw [step, hf, parseF_expr_tax ρ f TM hden]

end Formula

namespace Budgeting

open JsModel

theorem splitFirstCostText_num (C : ℚ) (g : Nat) :
    splitFirstCostText (.num C) g =
      String.mk ('=' :: (ratToChars C ++ ('-' :: 'R' :: '[' ::
        (natToChars g ++ (']' :: 'C' :: '[' :: '0' :: ']' :: []))))) := by
  apply String.ext
  simp only [splitFirstCostText, cellIsString, Bool.false_and,
    Bool.false_eq_true, if_false, cellTemplate, ratToString,
    String.data_append, List.append_assoc]
  rfl

theorem splitNewCostText_eq (vars : Variables) :
    splitNewCostText vars =
      String.mk ('=' :: (ratToChars vars.TaxMultiplier ++
        ('*' :: '(' :: '0' :: ')' :: []))) := by
  apply String.ext
  simp only [splitNewCostText, ratToString, String.data_append,
    List.append_assoc]
  rfl

end Budgeting

namespace Budgeting

open JsModel Formula

theorem getD_set_self {α : Type} (l : List α) (n : Nat) (a d : α)
    (h : n < l.length) : (l.set n a).getD n d = a := by
  induction l generalizing n with
  | nil => simp at h
  | cons x t ih =>
    cases n with
    | zero => rfl
    | succ m => exact ih m (by simpa using h)

theorem getD_set_ne {α : Type} (l : List α) (m n : Nat) (a d : α)
    (h : m ≠ n) : (l.set m a).getD n d = l.getD n d := by
  induction l generalizing m n with
  | nil => rfl
  | cons x t ih =>
    cases m with
    | zero =>
      cases n with
      | zero => exact absurd rfl h
      | succ k => rfl
    | succ j =>
      cases n with
      | zero => rfl
      | succ k => exact ih j k (fun hc => h (by rw [hc]))

theorem shiftRowsDownOne_length (rows : List TxRow) (a b : Nat)
    (hab : a ≤ b) (hb : b < rows.length) :
    (shiftRowsDownOne rows a b).length = rows.length := by
  simp [shiftRowsDownOne, List.length_append, List.length_take,
    List.length_drop]
  omega

end Budgeting

namespace Budgeting

open JsModel Formula

/-- **C8.**  Split cost algebra: when the target row's cost is the plain
number `C` and `splitTransaction` succeeds, the returned range starts at
the target row and covers the group plus the new row, the first row's
cost cell now holds the formula `=C-R[g]C[0]` (`g` = group length) and
the appended row the formula `=TaxMultiplier*(0)`; evaluating the first
formula yields `C` minus the value of the cell `g` rows below, the second
yields `TaxMultiplier * 0`, and with the new amount still `0` the two
evaluated amounts sum back to the original `C`.  The only hypotheses on
`C` and the configured tax multiplier are that each has a finite decimal
expansion (`∃ k, (x * 10 ^ k).den = 1`) — negative amounts such as
recorded refunds and multipliers of any decimal precision are covered,
and every JavaScript `number` is a dyadic rational, hence a finite
decimal, so no value the program can hold is excluded.  The original
value is wrapped with a leading `=` only because it is not already a
formula string: a cost cell that is already a string starting with `=` is
reused verbatim inside the difference expression. -/
theorem split_cost_expressions (vars : Variables) (sheet : TxSheet)
    (i : Nat) (C : ℚ) (sheet2 : TxSheet) (a b : Nat)
    (hcost : (rowAt sheet i).cost = .num C)
    (hden : ∃ k, (C * 10 ^ k).den = 1)
    (hTMden : ∃ k, (vars.TaxMultiplier * 10 ^ k).den = 1)
    (hsplit : splitTransaction vars sheet i = .ok (sheet2, a, b)) :
    a = i ∧ ∃ g, 0 < g ∧ b = g + 1 ∧
      (rowAt sheet2 i).cost = .str (splitFirstCostText (.num C) g) ∧
      (rowAt sheet2 (i + g)).cost = .str (splitNewCostText vars) ∧
      (∀ ρ : Int → ℚ, evalFormula (splitFirstCostText (.num C) g) ρ =
        some (C - ρ g)) ∧
      (∀ ρ : Int → ℚ, evalFormula (splitNewCostText vars) ρ =
        some (vars.TaxMultiplier * 0)) ∧
      (∀ ρ : Int → ℚ, ρ g = 0 →
        (evalFormula (splitFirstCostText (.num C) g) ρ).getD 0 +
          (evalFormula (splitNewCostText vars) ρ).getD 0 = C) ∧
      (∀ st : String, strStartsWith st "=" = true →
        splitFirstCostText (.str st) g = st ++ "-R[" ++
          String.mk (natToChars g) ++ "]C[0]") := by
  simp only [splitTransaction] at hsplit
  set g0 : Nat := 1 + extendGroupCount sheet (rowAt sheet i) (i + 1)
    (sheet.rows.length - (i + 1)) with hg0
  split at hsplit
  · exact absurd hsplit (by simp)
  · rename_i h1
    split at hsplit
    · exact absurd hsplit (by simp)
    · rename_i h2
      split at hsplit
      · exact absurd hsplit (by simp)
      · rename_i h3
        split at hsplit
        · exact absurd hsplit (by simp)
        · rename_i h4
          split at hsplit
          · exact absurd hsplit (by simp)
          · rename_i rows heq
            simp only [Except.ok.injEq, Prod.mk.injEq] at hsplit
            obtain ⟨hS, hA, hB⟩ := hsplit
            have hlen : rows.length = sheet.rows.length := by
              split at heq
              · split at heq
                · exact absurd heq (by simp)
                · split at heq
                  · exact absurd heq (by simp)
                  · rename_i hfe1 hfe2
                    simp only [Except.ok.injEq] at heq
                    subst heq
                    exact shiftRowsDownOne_length _ _ _ (by omega) (by omega)
              · simp only [Except.ok.injEq] at heq
                subst heq
                rfl
            subst hS
            refine ⟨hA.symm, g0, by omega, hB.symm, ?_, ?_, ?_, ?_, ?_, ?_⟩
            · simp only [rowAt]
              rw [getD_set_self _ _ _ _ (by rw [List.length_set, hlen]; omega)]
              have hcost2 : (sheet.rows[i]?.getD blankRow).cost =
                  CellV.num C := by
                have h5 := hcost
                simp only [rowAt, List.getD_eq_getElem?_getD] at h5
                exact h5
              simp [hcost2]
            · simp only [rowAt]
              rw [getD_set_ne _ _ _ _ _ (by omega),
                getD_set_self _ _ _ _ (by rw [hlen]; omega)]
            · intro ρ
              rw [splitFirstCostText_num]
              exact evalFormula_diff ρ C hden g0
            · intro ρ
              rw [splitNewCostText_eq]
              exact evalFormula_tax ρ _ hTMden
            · intro ρ h0
              rw [splitFirstCostText_num, splitNewCostText_eq,
                evalFormula_diff ρ C hden g0,
                evalFormula_tax ρ _ hTMden]
              simp [h0]
            · intro st hs
              apply String.ext
              simp [splitFirstCostText, cellIsString, cellTemplate, hs,
                String.data_append]

end Budgeting

namespace Budgeting

open JsModel Formula

unseal Rat.add Rat.mul Rat.sub Rat.inv Rat.ofScientific in
/-- C8 at a concrete input: splitting the `-$5.00` refund row appends
the `1.0825`-times-zero row and rewrites the first cost as a difference
formula; the cost is negative and the tax multiplier has four decimals,
and all hypotheses hold by evaluation. -/
theorem split_cost_expressions_witness :
    ((rowAt c8Sheet 0).cost = .num (-5) ∧
      splitTransaction c8Vars c8Sheet 0 = .ok (c8Sheet2, 0, 2)) ∧
    ((0 : Nat) = 0 ∧ ∃ g, 0 < g ∧ 2 = g + 1 ∧
      (rowAt c8Sheet2 0).cost = .str (splitFirstCostText (.num (-5)) g) ∧
      (rowAt c8Sheet2 (0 + g)).cost = .str (splitNewCostText c8Vars) ∧
      (∀ ρ : Int → ℚ, evalFormula (splitFirstCostText (.num (-5)) g) ρ =
        some (-5 - ρ g)) ∧
      (∀ ρ : Int → ℚ, evalFormula (splitNewCostText c8Vars) ρ =
        some (c8Vars.TaxMultiplier * 0)) ∧
      (∀ ρ : Int → ℚ, ρ g = 0 →
        (evalFormula (splitFirstCostText (.num (-5)) g) ρ).getD 0 +
          (evalFormula (splitNewCostText c8Vars) ρ).getD 0 = -5) ∧
      (∀ st : String, strStartsWith st "=" = true →
        splitFirstCostText (.str st) g = st ++ "-R[" ++
          String.mk (natToChars g) ++ "]C[0]")) :=
  ⟨⟨by decide, by decide⟩,
    split_cost_expressions c8Vars c8Sheet 0 (-5) c8Sheet2 0 2 (by decide)
      ⟨0, by decide⟩ ⟨4, by decide⟩ (by decide)⟩

end Budgeting
